import Mathlib

/-!
Verification of the simulation core of `caca-tesouro-desktop`
(dungeon graph, pathfinding algorithms, tick-driven combat, monster behavior).

Shallow embedding conventions:
* Python `dict[int, V]` is modelled as an association list `List (Nat × V)`
  with insertion-order semantics (`aset` replaces the first matching key in
  place, otherwise appends — exactly a `d[k] = v` assignment).
* Python `float` arithmetic is modelled by exact rationals `ℚ`; every claim
  proved here only depends on bounds that are robust under that reading, and
  every concrete counterexample uses values on which IEEE arithmetic is exact.
* `int(x)` (truncation toward zero) is `pyInt`.
* `random.uniform` / crit rolls / reward rolls are passed in as explicit
  parameters, making the tick functions deterministic in their random draws.
* Unbounded `while` loops are driven by an explicit fuel argument; every
  universally-quantified theorem below is proved for *every* fuel (the
  invariants hold at each step), and concrete evaluations use a fuel that
  provably lets the loop run to completion.
-/

namespace CacaTesouro

/-! ### Association lists: the embedding of Python `dict` -/

/-- First-match lookup, the embedding of `d[k]` / `d.get(k)`. -/
def alookup {α : Type} (m : List (Nat × α)) (k : Nat) : Option α :=
  match m with
  | [] => none
  | (k', v) :: rest => if k' = k then some v else alookup rest k

/-- Dict assignment `d[k] = v`: replace the first matching key in place,
otherwise append (Python dicts keep insertion order). -/
def aset {α : Type} (m : List (Nat × α)) (k : Nat) (v : α) : List (Nat × α) :=
  match m with
  | [] => [(k, v)]
  | (k', v') :: rest => if k' = k then (k, v) :: rest else (k', v') :: aset rest k v

/-- Dict deletion `del d[k]`: drop the first matching key. -/
def aerase {α : Type} (m : List (Nat × α)) (k : Nat) : List (Nat × α) :=
  match m with
  | [] => []
  | (k', v') :: rest => if k' = k then rest else (k', v') :: aerase rest k

/-- In-place modification of an existing entry (`d[k].field = ...` on an
aliased value); keys absent from the dict are left untouched. -/
def amodify {α : Type} (m : List (Nat × α)) (k : Nat) (f : α → α) : List (Nat × α) :=
  match m with
  | [] => []
  | (k', v') :: rest => if k' = k then (k', f v') :: rest else (k', v') :: amodify rest k f

/-- The key list of a dict, in insertion order. -/
def akeys {α : Type} (m : List (Nat × α)) : List Nat := m.map Prod.fst

/-! ### Small numeric helpers -/

/-- Python `int(x)`: truncation toward zero. -/
def pyInt (q : ℚ) : Int := if 0 ≤ q then ⌊q⌋ else ⌈q⌉

/-- Bisection step for the integer square root. -/
def isqrtAux (n : Nat) : Nat → Nat → Nat → Nat
  | 0, lo, _hi => lo
  | Nat.succ fuel, lo, hi =>
    if hi ≤ lo + 1 then lo
    else
      let mid := (lo + hi) / 2
      if mid * mid ≤ n then isqrtAux n fuel mid hi else isqrtAux n fuel lo mid

/-- Integer square root by bisection (exact floor square root for every
`n < 2^64`, which covers every input in this file). -/
def isqrt (n : Nat) : Nat := isqrtAux n 64 0 (n + 1)

/-- Exact square root of a rational, used to embed `(dx*dx+dy*dy) ** 0.5`.
It agrees with the source's float square root on every input appearing in this
file (perfect squares, on which IEEE sqrt is exact). -/
def ratSqrt (q : ℚ) : ℚ := ((isqrt q.num.toNat : Int) : ℚ) / ((isqrt q.den : Int) : ℚ)

/-! ### `core/graph.py`: edge types, vertices, edges, the graph store -/

/-- `EdgeType` from `core/graph.py`. -/
inductive EdgeType where
  | NORMAL_TUNNEL
  | UNSTABLE_TUNNEL
  | SECRET_PASSAGE
  | COLLAPSED_TUNNEL
  | REINFORCED_TUNNEL
  | NARROW_PASSAGE
  | UNDERWATER_PASSAGE
deriving DecidableEq, Repr

/-- `Vertex` from `core/graph.py`. Fields not consulted by any claim
(biome, hazards, resources, obstacles, grid position, treasure flag) are
omitted; the monster-related dynamic flags are kept. -/
structure Vertex where
  id : Nat
  name : String
  x : ℚ
  y : ℚ
  has_monster : Bool := false
  monster_type : Option String := none
  monster_level : Int := 1
deriving DecidableEq, Repr

/-- `Edge` from `core/graph.py` (mutable fields included; the `obstacles`
list, unused by every claim, is omitted). -/
structure Edge where
  id : Nat
  v1_id : Nat
  v2_id : Nat
  weight : Int
  edge_type : EdgeType
  blocked : Bool
  stability : Int
  reinforced : Bool
  has_fissures : Bool
  collapse_chance : ℚ
  discovered : Bool
  stamina_cost : Int
  monster_level_hint : Int
deriving DecidableEq, Repr

/-- `Edge._update_collapse_chance`: recompute `collapse_chance` from the
edge's type, stability, fissures and reinforcement (float constants read as
exact rationals). -/
def Edge._update_collapse_chance (e : Edge) : Edge :=
  let base : ℚ :=
    if e.edge_type = EdgeType.UNSTABLE_TUNNEL then 15/100
    else if e.edge_type = EdgeType.COLLAPSED_TUNNEL then 1
    else if e.edge_type = EdgeType.REINFORCED_TUNNEL then 1/100
    else 0
  let stability_factor : ℚ := ((100 - e.stability : Int) : ℚ) / 100
  let cc : ℚ := min 1 (base + stability_factor * (3/10))
  let cc : ℚ := if e.has_fissures then cc + 1/10 else cc
  let cc : ℚ := if e.reinforced then cc * (3/10) else cc
  { e with collapse_chance := cc }

/-- `Edge.__init__`: stores the supplied weight verbatim and derives the
initial collapse chance. -/
def Edge.init (id v1_id v2_id : Nat) (weight : Int) (edge_type : EdgeType)
    (blocked : Bool) : Edge :=
  Edge._update_collapse_chance
    { id := id, v1_id := v1_id, v2_id := v2_id, weight := weight,
      edge_type := edge_type, blocked := blocked,
      stability := 100, reinforced := false, has_fissures := false,
      collapse_chance := 0, discovered := false,
      stamina_cost := 3, monster_level_hint := 0 }

/-- `Edge.damage_stability`. -/
def Edge.damage_stability (e : Edge) (amount : Int) : Edge :=
  Edge._update_collapse_chance { e with stability := max 0 (e.stability - amount) }

/-- `Edge.reinforce`. -/
def Edge.reinforce (e : Edge) : Edge :=
  Edge._update_collapse_chance
    { e with reinforced := true, stability := min 100 (e.stability + 30) }

/-- `Edge.add_fissures`. -/
def Edge.add_fissures (e : Edge) : Edge :=
  Edge._update_collapse_chance { e with has_fissures := true }

/-- `Graph` from `core/graph.py`: vertex dict, edge dict, adjacency index,
id counters. -/
structure Graph where
  vertices : List (Nat × Vertex)
  edges : List (Nat × Edge)
  adj : List (Nat × List Nat)
  _next_v_id : Nat
  _next_e_id : Nat
deriving Repr

/-- `Graph.__init__`. -/
def Graph.empty : Graph :=
  { vertices := [], edges := [], adj := [], _next_v_id := 0, _next_e_id := 0 }

/-- `Graph.add_vertex` (returns the new graph and the fresh vertex id; the
source returns the `Vertex` object). -/
def Graph.add_vertex (g : Graph) (name : String) (x y : ℚ) : Graph × Nat :=
  let v_id := g._next_v_id
  let v : Vertex := { id := v_id, name := name, x := x, y := y }
  ({ g with vertices := aset g.vertices v_id v,
            adj := aset g.adj v_id [],
            _next_v_id := v_id + 1 }, v_id)

/-- `Graph.add_edge`: `None` when either endpoint is unknown, otherwise the
freshly stored edge. The supplied weight is stored without any clamping. -/
def Graph.add_edge (g : Graph) (v1_id v2_id : Nat) (weight : Int)
    (edge_type : EdgeType) : Graph × Option Edge :=
  if (alookup g.vertices v1_id).isSome ∧ (alookup g.vertices v2_id).isSome then
    let e_id := g._next_e_id
    let e := Edge.init e_id v1_id v2_id weight edge_type false
    ({ g with edges := aset g.edges e_id e,
              adj := amodify (amodify g.adj v1_id (fun l => l ++ [e_id])) v2_id
                       (fun l => l ++ [e_id]),
              _next_e_id := e_id + 1 }, some e)
  else (g, none)

/-- `Graph.block_edge`. -/
def Graph.block_edge (g : Graph) (edge_id : Nat) : Graph :=
  { g with edges := amodify g.edges edge_id (fun e => { e with blocked := true }) }

/-- `Graph.neighbors`: `(neighbor_id, edge)` pairs over the incident edge
ids, skipping blocked edges unless `include_blocked`. -/
def Graph.neighbors (g : Graph) (vertex_id : Nat) (include_blocked : Bool) :
    List (Nat × Edge) :=
  match alookup g.adj vertex_id with
  | none => []
  | some eids =>
    eids.filterMap (fun e_id =>
      match alookup g.edges e_id with
      | none => none
      | some edge =>
        if !include_blocked && edge.blocked then none
        else some (if edge.v1_id = vertex_id then (edge.v2_id, edge)
                   else (edge.v1_id, edge)))

/-- The ids of the (unblocked-reachable) neighbors of a vertex. -/
def nbrIds (g : Graph) (vertex_id : Nat) : List Nat :=
  (g.neighbors vertex_id false).map Prod.fst

/-- The graph well-formedness invariant of spec §3 ("adjacency index is
always consistent with edge endpoint membership"): vertex keys are unique
and every neighbor produced by the adjacency index is a stored vertex. -/
structure Graph.WF (g : Graph) : Prop where
  nodup_v : (akeys g.vertices).Nodup
  nbr_closed : ∀ u ∈ akeys g.adj, ∀ v ∈ nbrIds g u, v ∈ akeys g.vertices

/-- `ReachN g s v n`: there is a walk of `n` unblocked edges from `s` to `v`
(the adjacency used by every search in `core/algorithms.py`). -/
inductive ReachN (g : Graph) (s : Nat) : Nat → Nat → Prop where
  | refl : ReachN g s s 0
  | step : ∀ {u v n}, ReachN g s u n → v ∈ nbrIds g u → ReachN g s v (n + 1)

/-- `Reach g s v`: `v` is reachable from `s` through unblocked edges. -/
def Reach (g : Graph) (s v : Nat) : Prop := ∃ n, ReachN g s v n

/-! ### `core/player.py`: buffs and players -/

/-- `BuffType` from `core/player.py` (only the variants consulted by the
combat path are listed; the others never influence any claimed behavior). -/
inductive BuffType where
  | ATTACK_BOOST
  | DEFENSE_BOOST
  | WEAKNESS
  | INVULNERABILITY
  | POISON
  | REGENERATION
deriving DecidableEq, Repr

/-- `Buff` from `core/player.py`. -/
structure Buff where
  buff_type : BuffType
  magnitude : Int
  duration : Int
deriving DecidableEq, Repr

/-- `Player` from `core/player.py`; fields not consulted by the combat and
monster systems (cards, inventory, economy, statistics, names used only in
log strings) are omitted. -/
structure Player where
  id : Nat
  current_vertex_id : Nat
  max_hp : Int := 100
  hp : Int := 100
  attack : Int := 10
  defense : Int := 5
  critical_chance : ℚ := 1/10
  dodge_chance : ℚ := 1/10
  stamina : Int := 100
  max_stamina : Int := 100
  level : Int := 1
  buffs : List Buff := []
  is_alive : Bool := true
deriving DecidableEq, Repr

/-- `Player.has_buff`. -/
def Player.has_buff (p : Player) (bt : BuffType) : Bool :=
  p.buffs.any (fun b => b.buff_type = bt)

/-- `Player.get_buff`. -/
def Player.get_buff (p : Player) (bt : BuffType) : Option Buff :=
  p.buffs.find? (fun b => b.buff_type = bt)

/-- `Player.get_effective_attack`. -/
def Player.get_effective_attack (p : Player) : Int :=
  let attack : Int := p.attack
  let attack : Int := match p.get_buff BuffType.ATTACK_BOOST with
    | some b => attack + b.magnitude
    | none => attack
  let attack : Int := if p.has_buff BuffType.WEAKNESS
    then pyInt ((attack : ℚ) * (7/10)) else attack
  max 1 attack

/-- `Player.get_effective_defense`. -/
def Player.get_effective_defense (p : Player) : Int :=
  let defense : Int := p.defense
  let defense : Int := match p.get_buff BuffType.DEFENSE_BOOST with
    | some b => defense + b.magnitude
    | none => defense
  max 0 defense

/-- `Player.take_damage`: subtracts the player's own `defense` again from the
incoming amount (floored at 1), floors hp at 0, flips `is_alive`; returns the
updated player and the damage figure the source returns. -/
def Player.take_damage (p : Player) (amount : Int) : Player × Int :=
  let damage : Int := max 1 (amount - p.defense)
  if p.has_buff BuffType.INVULNERABILITY then (p, 0)
  else
    let damage : Int := if p.has_buff BuffType.WEAKNESS
      then pyInt ((damage : ℚ) * (3/2)) else damage
    let hp' := max 0 (p.hp - damage)
    ({ p with hp := hp', is_alive := if hp' ≤ 0 then false else p.is_alive }, damage)

/-- `Player.consume_stamina`. -/
def Player.consume_stamina (p : Player) (amount : Int) : Player × Bool :=
  if amount ≤ p.stamina then ({ p with stamina := p.stamina - amount }, true)
  else (p, false)

/-! ### `core/obstacles.py`: monsters -/

/-- `MonsterType` from `core/obstacles.py`. -/
inductive MonsterType where
  | GOBLIN
  | ORC
  | CAVE_SPIRIT
  | STONE_GOLEM
  | GIANT_BAT
  | SLIME
deriving DecidableEq, Repr

/-- `Monster` from `core/obstacles.py`. -/
structure Monster where
  monster_type : MonsterType
  level : Int
  max_hp : Int
  hp : Int
  attack : Int
  defense : Int
  speed : Int
  surprise_attack_chance : ℚ
  flee_chance : ℚ
  gold_reward : Int × Int
  exp_reward : Int
  item_drop_chance : ℚ
  possible_drops : List String
deriving DecidableEq, Repr

/-- `Monster._apply_type_stats`. -/
def Monster._apply_type_stats (m : Monster) : Monster :=
  let m :=
    match m.monster_type with
    | MonsterType.GOBLIN =>
      { m with max_hp := 25, attack := 6, defense := 1, speed := 8,
               surprise_attack_chance := 25/100, gold_reward := (5, 15), exp_reward := 15 }
    | MonsterType.ORC =>
      { m with max_hp := 50, attack := 12, defense := 5, speed := 3,
               surprise_attack_chance := 5/100, gold_reward := (20, 40), exp_reward := 35 }
    | MonsterType.CAVE_SPIRIT =>
      { m with max_hp := 30, attack := 8, defense := 0, speed := 10,
               surprise_attack_chance := 3/10, flee_chance := 4/10,
               gold_reward := (10, 25), exp_reward := 25,
               possible_drops := [("gem"), ("rune")] }
    | MonsterType.STONE_GOLEM =>
      { m with max_hp := 80, attack := 10, defense := 10, speed := 1,
               surprise_attack_chance := 0, flee_chance := 0,
               gold_reward := (30, 60), exp_reward := 50,
               possible_drops := [("gem"), ("key"), ("armor_shard")] }
    | MonsterType.GIANT_BAT =>
      { m with max_hp := 20, attack := 7, defense := 1, speed := 12,
               surprise_attack_chance := 35/100, gold_reward := (5, 10), exp_reward := 12 }
    | MonsterType.SLIME =>
      { m with max_hp := 40, attack := 4, defense := 3, speed := 2,
               surprise_attack_chance := 0, gold_reward := (8, 20), exp_reward := 18,
               possible_drops := [("potion"), ("slime_core")] }
  { m with hp := m.max_hp }

/-- `Monster._scale_by_level` (the `1.0 + (level-1)*0.3` float multiplier and
`int(...)` truncations read exactly). -/
def Monster._scale_by_level (m : Monster) : Monster :=
  let multiplier : ℚ := 1 + ((m.level - 1 : Int) : ℚ) * (3/10)
  let max_hp := pyInt ((m.max_hp : ℚ) * multiplier)
  { m with max_hp := max_hp, hp := max_hp,
           attack := pyInt ((m.attack : ℚ) * multiplier),
           defense := pyInt ((m.defense : ℚ) * multiplier),
           exp_reward := pyInt ((m.exp_reward : ℚ) * multiplier),
           gold_reward := (pyInt ((m.gold_reward.1 : ℚ) * multiplier),
                           pyInt ((m.gold_reward.2 : ℚ) * multiplier)) }

/-- `Monster.__init__`. -/
def Monster.init (monster_type : MonsterType) (level : Int) : Monster :=
  Monster._scale_by_level (Monster._apply_type_stats
    { monster_type := monster_type, level := level,
      max_hp := 30, hp := 30, attack := 5, defense := 2, speed := 5,
      surprise_attack_chance := 1/10, flee_chance := 2/10,
      gold_reward := (10, 30), exp_reward := 20, item_drop_chance := 3/10,
      possible_drops := [("potion"), ("key")] })

/-- `Monster.take_damage`: again subtracts the monster's own defense, floors
the damage at 1 and the hp at 0. -/
def Monster.take_damage (m : Monster) (amount : Int) : Monster × Int :=
  let damage := max 1 (amount - m.defense)
  ({ m with hp := max 0 (m.hp - damage) }, damage)

/-- `Monster.is_alive`. -/
def Monster.is_alive (m : Monster) : Bool := decide (0 < m.hp)

/-! ### `core/combat.py`: damage formula and result record -/

/-- `CombatSystem.calculate_damage`. The `random.uniform(0.8, 1.2)` draw is
the explicit parameter `u`; `int()` truncations are `pyInt`. -/
def calculate_damage (attacker_attack defender_defense : Int) (is_critical : Bool)
    (u : ℚ) : Int :=
  let base_damage : Int := max 1 (attacker_attack - defender_defense)
  let damage : Int := pyInt ((base_damage : ℚ) * u)
  let damage : Int := if is_critical then pyInt ((damage : ℚ) * 2) else damage
  max 1 damage

/-- `CombatResult` from `core/combat.py` (log strings and damage tallies,
unused by the claims, are omitted). -/
structure CombatResult where
  player_won : Bool := false
  player_fled : Bool := false
  player_died : Bool := false
  turns_taken : Nat := 0
  exp_gained : Int := 0
  gold_gained : Int := 0
  items_gained : List String := []
deriving DecidableEq, Repr

/-! ### `core/systems/combat_system.py`: the tick-based combat clock -/

/-- `TickCombatInstance` (log lists omitted — they carry no game state). -/
structure TickCombatInstance where
  player : Player
  monster : Monster
  player_cooldown : ℚ
  player_timer : ℚ
  monster_cooldown : ℚ
  monster_timer : ℚ
  turns : Nat
  max_turns : Nat
  ended : Bool
deriving DecidableEq, Repr

/-- `TickCombatInstance.__init__`: the player has no `attack_cooldown`
attribute, so `getattr` yields the default 1.0; the player starts fully
charged, the monster half charged. -/
def TickCombatInstance.init (player : Player) (monster : Monster) :
    TickCombatInstance :=
  let player_cooldown : ℚ := 1
  let monster_cooldown : ℚ := max (4/10) ((15/10) - (monster.speed : ℚ) * (5/100))
  { player := player, monster := monster,
    player_cooldown := player_cooldown, player_timer := player_cooldown,
    monster_cooldown := monster_cooldown,
    monster_timer := monster_cooldown * (1/2),
    turns := 0, max_turns := 120, ended := false }

/-- The end-condition block at the bottom of `TickCombatInstance.tick`:
player death, monster death, then the 120-tick budget, each flipping
`ended` (checked only after the simultaneous damage application). -/
def TickCombatInstance.checkEnd (base : TickCombatInstance) : TickCombatInstance :=
  if base.player.is_alive = false then { base with ended := true }
  else if base.monster.is_alive = false then { base with ended := true }
  else if base.max_turns ≤ base.turns then { base with ended := true }
  else base

/-- `TickCombatInstance.tick`: advance both timers by `delta`, queue both
ready attacks (the player's gated by 5 stamina, with the timer reset either
way), apply the queued damages simultaneously against the pre-tick hp
values, then check the death and turn-budget conditions. The crit rolls and
±20% variance draws are the explicit parameters `pcrit pu mcrit mu`. -/
def TickCombatInstance.tick (inst : TickCombatInstance) (delta : ℚ)
    (pcrit : Bool) (pu : ℚ) (mcrit : Bool) (mu : ℚ) : TickCombatInstance :=
  if inst.ended then inst
  else
    let ptimer := inst.player_timer + delta
    let mtimer := inst.monster_timer + delta
    -- player ready to attack?
    let pdat :
        Player × ℚ × Option Int :=
      if inst.player.is_alive = true ∧ inst.player_cooldown ≤ ptimer then
        if 5 ≤ inst.player.stamina then
          let player1 := (inst.player.consume_stamina 5).1
          let raw := calculate_damage player1.get_effective_attack
            inst.monster.defense pcrit pu
          (player1, 0, some raw)
        else (inst.player, 0, none)
      else (inst.player, ptimer, none)
    let player1 := pdat.1
    let ptimer1 := pdat.2.1
    let pAct := pdat.2.2
    -- monster ready to attack?
    let mdat : ℚ × Option Int :=
      if inst.monster.is_alive = true ∧ inst.monster_cooldown ≤ mtimer then
        (0, some (calculate_damage inst.monster.attack
          player1.get_effective_defense mcrit mu))
      else (mtimer, none)
    let mtimer1 := mdat.1
    let mAct := mdat.2
    -- apply all queued damage simultaneously
    let damage_to_player : Int := match mAct with | some d => d | none => 0
    let damage_to_monster : Int := match pAct with | some d => d | none => 0
    let anyAct := pAct.isSome || mAct.isSome
    let player2 := if anyAct = true ∧ damage_to_player ≠ 0
      then (player1.take_damage damage_to_player).1 else player1
    let monster2 := if anyAct = true ∧ damage_to_monster ≠ 0
      then (inst.monster.take_damage damage_to_monster).1 else inst.monster
    let turns1 := if anyAct = true then inst.turns + 1 else inst.turns
    TickCombatInstance.checkEnd
      { inst with player := player2, monster := monster2,
                  player_timer := ptimer1, monster_timer := mtimer1,
                  turns := turns1 }

/-- `TickCombatInstance.get_result`; the random reward draws
(`get_reward_gold`, `get_reward_items`) are the parameters `goldRoll`,
`itemDrops`. -/
def TickCombatInstance.get_result (inst : TickCombatInstance)
    (goldRoll : Int) (itemDrops : List String) : CombatResult :=
  let player_won := !inst.monster.is_alive
  { turns_taken := inst.turns,
    player_died := !inst.player.is_alive,
    player_won := player_won,
    exp_gained := if player_won then inst.monster.exp_reward else 0,
    gold_gained := if player_won then goldRoll else 0,
    items_gained := if player_won then itemDrops else [] }

/-! ### `core/algorithms.py`: BFS, Dijkstra, A* -/

/-- `queue.pop(0)` / FIFO handling is direct; this helper embeds
`heapq.heappop`: extract the lexicographically least element (leftmost among
equals — equal tuples are interchangeable, so the heap's internal order does
not matter), returning it and the remaining entries. -/
def popMinBy {α : Type} (le : α → α → Bool) : List α → Option (α × List α)
  | [] => none
  | x :: xs =>
    match popMinBy le xs with
    | none => some (x, [])
    | some (m, rest) => if le x m then some (x, xs) else some (m, x :: rest)

/-- Lexicographic order on `(priority, vertex_id)` heap tuples. -/
def lexLe {β : Type} [LinearOrder β] (a b : β × Nat) : Bool :=
  decide (a.1 < b.1 ∨ (a.1 = b.1 ∧ a.2 ≤ b.2))

/-- The evolving state of `bfs`. -/
structure BfsState where
  distances : List (Nat × Nat)
  queue : List (Nat × Nat)
  visited : List Nat
deriving Repr

/-- The neighbor loop inside `bfs`: enqueue each unvisited neighbor at
distance `d + 1`. -/
def bfsRelax (d : Nat) : List (Nat × Edge) → BfsState → BfsState
  | [], st => st
  | (nb, _e) :: rest, st =>
    if nb ∈ st.visited then bfsRelax d rest st
    else bfsRelax d rest
      { distances := aset st.distances nb (d + 1),
        queue := st.queue ++ [(nb, d + 1)],
        visited := nb :: st.visited }

/-- The `while queue` loop of `bfs`, with fuel bounding the number of
iterations (each iteration pops exactly one entry, and entries are enqueued
at most once per vertex, so `|vertices| + 1` units of fuel always suffice). -/
def bfsAux (g : Graph) (max_depth : Option Nat) : Nat → BfsState → BfsState
  | 0, st => st
  | Nat.succ fuel, st =>
    match st.queue with
    | [] => st
    | (current_id, current_dist) :: rest =>
      let st1 : BfsState := { st with queue := rest }
      if (match max_depth with
          | some md => decide (md ≤ current_dist)
          | none => false) then
        bfsAux g max_depth fuel st1
      else
        bfsAux g max_depth fuel
          (bfsRelax current_dist (g.neighbors current_id false) st1)

/-- `bfs` from `core/algorithms.py`: distance map in edge counts. -/
def bfs (g : Graph) (start_vertex_id : Nat) (max_depth : Option Nat) :
    List (Nat × Nat) :=
  if (alookup g.vertices start_vertex_id).isSome then
    (bfsAux g max_depth (g.vertices.length + 1)
      { distances := [(start_vertex_id, 0)],
        queue := [(start_vertex_id, 0)],
        visited := [start_vertex_id] }).distances
  else []

/-- The evolving state of `dijkstra`. Distance values live in
`WithTop Int`: `⊤` is the explicit `float('inf')` the source stores. -/
structure DijkstraState where
  distances : List (Nat × WithTop Int)
  predecessors : List (Nat × Nat)
  pq : List (Int × Nat)
  visited : List Nat
deriving Repr

/-- The relaxation loop of `dijkstra` over the current vertex's neighbors. -/
def dijkstraRelax (current_id : Nat) (current_dist : Int) :
    List (Nat × Edge) → DijkstraState → DijkstraState
  | [], st => st
  | (nb, e) :: rest, st =>
    let new_dist := current_dist + e.weight
    if ((new_dist : Int) : WithTop Int) < ((alookup st.distances nb).getD ⊤) then
      dijkstraRelax current_id current_dist rest
        { st with distances := aset st.distances nb ((new_dist : Int) : WithTop Int),
                  predecessors := aset st.predecessors nb current_id,
                  pq := st.pq ++ [(new_dist, nb)] }
    else dijkstraRelax current_id current_dist rest st

/-- The `while pq` loop of `dijkstra`: pop the least `(dist, id)` tuple, skip
already-visited pops, optionally break on the target, skip stale entries,
otherwise relax. -/
def dijkstraAux (g : Graph) (end_vertex_id : Option Nat) :
    Nat → DijkstraState → DijkstraState
  | 0, st => st
  | Nat.succ fuel, st =>
    match popMinBy lexLe st.pq with
    | none => st
    | some ((current_dist, current_id), rest) =>
      if current_id ∈ st.visited then
        dijkstraAux g end_vertex_id fuel { st with pq := rest }
      else
        let st1 : DijkstraState := { st with pq := rest, visited := current_id :: st.visited }
        if end_vertex_id = some current_id then st1
        else if ((alookup st1.distances current_id).getD ⊤) < ((current_dist : Int) : WithTop Int) then
          dijkstraAux g end_vertex_id fuel st1
        else
          dijkstraAux g end_vertex_id fuel
            (dijkstraRelax current_id current_dist (g.neighbors current_id false) st1)

/-- Fuel for `dijkstra`'s loop: generous enough for every concrete run in
this file; all universally quantified theorems below hold for every fuel. -/
def dijkstraFuel (g : Graph) : Nat :=
  (g.vertices.length + 1) * (g.edges.length + 1) * 8

/-- `dijkstra` from `core/algorithms.py`: `(distances, predecessors)`.
`distances` starts as `{v: inf for v in graph.vertices}` — every vertex gets
an explicit entry, `⊤` standing for `float('inf')`. -/
def dijkstra (g : Graph) (start_vertex_id : Nat) (end_vertex_id : Option Nat) :
    List (Nat × WithTop Int) × List (Nat × Nat) :=
  if (alookup g.vertices start_vertex_id).isSome then
    let init : DijkstraState :=
      { distances := aset (g.vertices.map (fun p => (p.1, (⊤ : WithTop Int))))
          start_vertex_id ((0 : Int) : WithTop Int),
        predecessors := [], pq := [((0 : Int), start_vertex_id)], visited := [] }
    let fin := dijkstraAux g end_vertex_id (dijkstraFuel g) init
    (fin.distances, fin.predecessors)
  else ([], [])

/-- `heuristic_distance`: Euclidean distance between the stored 2D positions
(`⊤` = `float('inf')` when a vertex is unknown). -/
def heuristic_distance (g : Graph) (v1_id v2_id : Nat) : WithTop ℚ :=
  match alookup g.vertices v1_id, alookup g.vertices v2_id with
  | some v1, some v2 =>
    let dx := v1.x - v2.x
    let dy := v1.y - v2.y
    ((ratSqrt (dx * dx + dy * dy) : ℚ) : WithTop ℚ)
  | _, _ => ⊤

/-- Cast a cost into the float-valued f-score domain. -/
def costToF : WithTop Int → WithTop ℚ
  | ⊤ => ⊤
  | (some n : WithTop Int) => ((n : ℚ) : WithTop ℚ)

/-- The evolving state of `a_star`. -/
structure AStarState where
  open_set : List (WithTop ℚ × Nat)
  came_from : List (Nat × Nat)
  g_score : List (Nat × WithTop Int)
  f_score : List (Nat × WithTop ℚ)
  visited : List Nat
deriving Repr

/-- The relaxation loop of `a_star` over the current vertex's neighbors. -/
def aStarRelax (g : Graph) (goal_vertex_id current_id : Nat) :
    List (Nat × Edge) → AStarState → AStarState
  | [], st => st
  | (nb, e) :: rest, st =>
    let tentative_g := ((alookup st.g_score current_id).getD ⊤) + ((e.weight : Int) : WithTop Int)
    if tentative_g < ((alookup st.g_score nb).getD ⊤) then
      let f := costToF tentative_g + heuristic_distance g nb goal_vertex_id
      aStarRelax g goal_vertex_id current_id rest
        { st with came_from := aset st.came_from nb current_id,
                  g_score := aset st.g_score nb tentative_g,
                  f_score := aset st.f_score nb f,
                  open_set := st.open_set ++ [(f, nb)] }
    else aStarRelax g goal_vertex_id current_id rest st

/-- The backward walk reconstructing the path once the goal is popped. -/
def aStarWalk (came_from : List (Nat × Nat)) : Nat → Nat → List Nat → List Nat
  | 0, _, path => path
  | Nat.succ fuel, current, path =>
    match alookup came_from current with
    | some prev => aStarWalk came_from fuel prev (current :: path)
    | none => path

/-- The `while open_set` loop of `a_star`. -/
def aStarAux (g : Graph) (start_vertex_id goal_vertex_id : Nat) :
    Nat → AStarState → List Nat × WithTop Int
  | 0, _ => ([], ⊤)
  | Nat.succ fuel, st =>
    match popMinBy lexLe st.open_set with
    | none => ([], ⊤)
    | some ((_current_f, current_id), rest) =>
      if current_id ∈ st.visited then
        aStarAux g start_vertex_id goal_vertex_id fuel { st with open_set := rest }
      else if current_id = goal_vertex_id then
        let path := aStarWalk st.came_from (st.came_from.length + 1) goal_vertex_id []
        (start_vertex_id :: path, (alookup st.g_score goal_vertex_id).getD ⊤)
      else
        let st1 : AStarState := { st with open_set := rest, visited := current_id :: st.visited }
        aStarAux g start_vertex_id goal_vertex_id fuel
          (aStarRelax g goal_vertex_id current_id (g.neighbors current_id false) st1)

/-- `a_star` from `core/algorithms.py`: `(path, total cost)`;
`([], inf)` when either endpoint is unknown or no path is found. -/
def a_star (g : Graph) (start_vertex_id goal_vertex_id : Nat) :
    List Nat × WithTop Int :=
  if (alookup g.vertices start_vertex_id).isSome ∧
     (alookup g.vertices goal_vertex_id).isSome then
    let init : AStarState :=
      { open_set := [((0 : ℚ), start_vertex_id)],
        came_from := [],
        g_score := aset (g.vertices.map (fun p => (p.1, (⊤ : WithTop Int))))
          start_vertex_id ((0 : Int) : WithTop Int),
        f_score := aset (g.vertices.map (fun p => (p.1, (⊤ : WithTop ℚ))))
          start_vertex_id (heuristic_distance g start_vertex_id goal_vertex_id),
        visited := [] }
    aStarAux g start_vertex_id goal_vertex_id (dijkstraFuel g) init
  else ([], ⊤)

/-! ### `core/systems/monster_system.py`: the behavior controller -/

/-- `MonsterState` from `core/systems/monster_system.py`. -/
structure MonsterState where
  monster : Monster
  vertex_id : Nat
  patrol_points : List Nat
  patrol_index : Nat := 0
  patrol_forward : Bool := true
  state : String := "idle"
  aggro_target : Option Nat := none
  time_since_last_move : ℚ := 0
  chase_timer : ℚ := 0
  move_cooldown : ℚ
  vision_range : Int := 3
  engaging : Bool := false
deriving DecidableEq, Repr

/-- `MonsterState.__init__`. -/
def MonsterState.init (monster : Monster) (vertex_id : Nat)
    (patrol_points : List Nat) : MonsterState :=
  { monster := monster, vertex_id := vertex_id, patrol_points := patrol_points,
    move_cooldown := max (4/10) ((15/10) - (monster.speed : ℚ) * (5/100)) }

/-- `MonsterType[mtype_str.upper()]` with the `except`-clause GOBLIN
fallback (also hit when the stored type is `None`). -/
def parseMonsterType (s : Option String) : MonsterType :=
  match s with
  | none => MonsterType.GOBLIN
  | some str =>
    if str.toUpper = "GOBLIN" then MonsterType.GOBLIN
    else if str.toUpper = "ORC" then MonsterType.ORC
    else if str.toUpper = "CAVE_SPIRIT" then MonsterType.CAVE_SPIRIT
    else if str.toUpper = "STONE_GOLEM" then MonsterType.STONE_GOLEM
    else if str.toUpper = "GIANT_BAT" then MonsterType.GIANT_BAT
    else if str.toUpper = "SLIME" then MonsterType.SLIME
    else MonsterType.GOBLIN

/-- The slice of `GameState` the monster and combat systems read and write:
the graph, the players, the monster controller's map and the combat
manager's active instances. -/
structure GState where
  graph : Graph
  players : List Player
  active_monsters : List (Nat × MonsterState)
  active_instances : List TickCombatInstance
deriving Repr

/-- `MonsterSystem.spawn_from_graph`: turn `has_monster` vertex flags into
tracked `MonsterState`s (level 2 on vertex 2, level 4 on vertex 5, else 1),
then drop entries whose vertex lost the flag. -/
def spawn_from_graph (st : GState) : GState :=
  let st :=
    st.graph.vertices.foldl (fun acc p =>
      let v_id := p.1
      let vertex := p.2
      if vertex.has_monster = true ∧ alookup acc.active_monsters v_id = none then
        let mtype := parseMonsterType vertex.monster_type
        let level : Int := if v_id = 2 then 2 else if v_id = 5 then 4 else 1
        let monster := Monster.init mtype level
        let neighbors := nbrIds acc.graph v_id
        let patrol_points := v_id :: neighbors.take 1
        let ms := { MonsterState.init monster v_id patrol_points with
                    state := if 1 < patrol_points.length then "patrol" else "idle" }
        { acc with
          active_monsters := aset acc.active_monsters v_id ms,
          graph := { acc.graph with
            vertices := amodify acc.graph.vertices v_id
              (fun vt => { vt with has_monster := true }) } }
      else acc) st
  { st with active_monsters :=
      st.active_monsters.filter (fun p =>
        match alookup st.graph.vertices p.1 with
        | some vtx => vtx.has_monster
        | none => true) }

/-- `MonsterSystem._on_monster_death`: drop the tracked state and clear the
vertex's monster flags. -/
def _on_monster_death (st : GState) (ms : MonsterState) : GState :=
  let v := ms.vertex_id
  { st with
    active_monsters := aerase st.active_monsters v,
    graph := { st.graph with
      vertices := amodify st.graph.vertices v
        (fun vt => { vt with has_monster := false, monster_type := none }) } }

/-- The body of the per-monster loop in `MonsterSystem.update`: advance the
movement timer, clean up a dead monster, otherwise force the `idle` state
(all detection and movement logic in the source is commented out). -/
def updateStep (delta : ℚ) (acc : GState) (p : Nat × MonsterState) : GState :=
  let v_id := p.1
  let ms := { p.2 with time_since_last_move := p.2.time_since_last_move + delta }
  if ms.monster.is_alive = false then
    _on_monster_death acc ms
  else
    let ms := if ms.state ≠ "idle"
      then { ms with state := "idle", aggro_target := none } else ms
    { acc with active_monsters := aset acc.active_monsters v_id ms }

/-- `MonsterSystem.update`: after `spawn_from_graph`, every monster gets its
timer advanced; dead monsters are cleaned up; every surviving monster is
forced to the `idle` state and all detection/movement logic is skipped (the
chase machinery in the source is commented out: "MONSTERS COMPLETELY
DISABLED"). -/
def MonsterSystem.update (st : GState) (delta : ℚ) : GState :=
  let st := spawn_from_graph st
  st.active_monsters.foldl (updateStep delta) st

/-- `MonsterSystem._detect_player_in_range`: first live player whose
Dijkstra distance from the monster's vertex is within the vision range. -/
def _detect_player_in_range (st : GState) (ms : MonsterState) : Option Player :=
  st.players.find? (fun player =>
    player.is_alive &&
      decide (((alookup (dijkstra st.graph ms.vertex_id
          (some player.current_vertex_id)).fst player.current_vertex_id).getD ⊤)
        ≤ ((ms.vision_range : Int) : WithTop Int)))

/-! ### `core/game_state.py` / `CombatManager`: the encounter dispatcher -/

/-- `CombatManager.start_combat`: create and register a new tick instance. -/
def start_combat (st : GState) (player : Player) (monster : Monster) :
    TickCombatInstance × GState :=
  let inst := TickCombatInstance.init player monster
  (inst, { st with active_instances := st.active_instances ++ [inst] })

/-- `GameState.trigger_combat`: the anti-duplicate guard returns the result
of the already-active non-terminal instance for this player, leaving the
registry untouched; otherwise the monster is resolved (tracked state first,
then a fresh monster from the vertex tag) and a new instance is registered.
`auto_combat` is always `True` and `run_combat_blocking` is never set in the
repository, so the non-blocking branch (register, return an initial result)
is the one embedded. `goldRoll`/`itemDrops` stand for the random reward
draws inside `get_result`. -/
def trigger_combat (st : GState) (player : Player) (vertex : Vertex)
    (goldRoll : Int) (itemDrops : List String) : CombatResult × GState :=
  match st.active_instances.find?
      (fun inst => inst.player.id = player.id && !inst.ended) with
  | some inst => (inst.get_result goldRoll itemDrops, st)
  | none =>
    let monster :=
      match alookup st.active_monsters vertex.id with
      | some active_ms => active_ms.monster
      | none => Monster.init (parseMonsterType vertex.monster_type) player.level
    let r := start_combat st player monster
    (r.1.get_result goldRoll itemDrops, r.2)

/-! ### Edge operation sequences (for the collapse-chance invariant) -/

/-- One of the three mutating edge operations named by spec §8. -/
inductive EdgeOp where
  | damage (amount : Int)
  | reinforce
  | fissures
deriving DecidableEq, Repr

/-- Apply one edge operation. -/
def applyEdgeOp (e : Edge) : EdgeOp → Edge
  | EdgeOp.damage a => e.damage_stability a
  | EdgeOp.reinforce => e.reinforce
  | EdgeOp.fissures => e.add_fissures

/-- Apply a sequence of edge operations left to right. -/
def applyEdgeOps (e : Edge) (ops : List EdgeOp) : Edge := ops.foldl applyEdgeOp e

/-! ### Concrete inputs used by counterexamples and witnesses -/

/-- Two isolated vertices (vertex 1 is unreachable from vertex 0). -/
def gNoEdge : Graph :=
  ((Graph.empty.add_vertex ("u") 0 0).1.add_vertex ("v") 1 0).1

/-- Two vertices, still without edges (edges are added in the theorems). -/
def gTwo : Graph :=
  ((Graph.empty.add_vertex ("A") 0 0).1.add_vertex ("B") 1 0).1

/-- The graph that defeats the A* heuristic: collinear positions `s=(0,0)`,
`a=(99,0)`, `g=(1,0)` (so every Euclidean distance is an exact integer and
the float sqrt of the source is exact), edges `s–g` weight 10, `s–a` weight
1, `a–g` weight 1. The cheapest `s→g` path costs 2, but the heuristic value
98 at `a` hides it from A*. -/
def gAStar : Graph :=
  let r1 := Graph.empty.add_vertex ("s") 0 0
  let r2 := r1.1.add_vertex ("a") 99 0
  let r3 := r2.1.add_vertex ("g") 1 0
  let e1 := r3.1.add_edge 0 2 10 EdgeType.NORMAL_TUNNEL
  let e2 := e1.1.add_edge 0 1 1 EdgeType.NORMAL_TUNNEL
  let e3 := e2.1.add_edge 1 2 1 EdgeType.NORMAL_TUNNEL
  e3.1

/-- A path graph `0 – 1` plus the isolated vertex `2`, used to exercise BFS
on both reachable and unreachable vertices. -/
def gBfs : Graph :=
  let r1 := Graph.empty.add_vertex ("p") 0 0
  let r2 := r1.1.add_vertex ("q") 1 0
  let r3 := r2.1.add_vertex ("r") 2 0
  (r3.1.add_edge 0 1 1 EdgeType.NORMAL_TUNNEL).1

/-- A player used in concrete combat scenarios: 5 hp, no defense, heavy
attack, full stamina. -/
def pDuel : Player :=
  { id := 0, current_vertex_id := 0, hp := 5, max_hp := 100, attack := 20,
    defense := 0, stamina := 100 }

/-- The matching monster: 5 hp, no defense, heavy attack. -/
def mDuel : Monster :=
  { monster_type := MonsterType.GOBLIN, level := 1, max_hp := 100, hp := 5,
    attack := 20, defense := 0, speed := 5, surprise_attack_chance := 1/4,
    flee_chance := 1/5, gold_reward := (5, 15), exp_reward := 15,
    item_drop_chance := 3/10, possible_drops := [("potion")] }

/-- A combat instance in which both sides are ready on the next tick. -/
def instDuel : TickCombatInstance :=
  { player := pDuel, monster := mDuel, player_cooldown := 1, player_timer := 1,
    monster_cooldown := 1, monster_timer := 1, turns := 0, max_turns := 120,
    ended := false }

/-- A single cave vertex flagged as holding a goblin. -/
def gCave : Graph :=
  let r := Graph.empty.add_vertex ("cave") 0 0
  let setFlags : Vertex → Vertex :=
    fun vt => { vt with has_monster := true, monster_type := some ("goblin") }
  { r.1 with vertices := amodify r.1.vertices 0 setFlags }

/-- A live player standing on the cave vertex. -/
def pCave : Player := { id := 7, current_vertex_id := 0 }

/-- A tracked goblin on the cave vertex, currently patrolling. -/
def msCave : MonsterState :=
  { MonsterState.init (Monster.init MonsterType.GOBLIN 1) 0 [0] with
    state := ("patrol") }

/-- The game-state slice around the cave encounter. -/
def gsCave : GState :=
  { graph := gCave, players := [pCave], active_monsters := [(0, msCave)],
    active_instances := [] }

/-- A game state with one running (non-terminal) combat instance. -/
def gsDuel : GState :=
  { graph := gCave, players := [pDuel], active_monsters := [],
    active_instances := [TickCombatInstance.init pDuel mDuel] }

/-- A vertex value handed to `trigger_combat` in witnesses. -/
def vCave : Vertex :=
  { id := 0, name := ("cave"), x := 0, y := 0, has_monster := true,
    monster_type := some ("goblin") }

/-- Invariant of the Dijkstra loop: the key set of the distance dict never
changes (it is the whole vertex set), finite entries belong to reachable
vertices, and every queue entry's vertex is reachable. -/
structure DijInv (g : Graph) (s : Nat) (st : DijkstraState) : Prop where
  keysEq : akeys st.distances = akeys g.vertices
  finite_reach : ∀ v d, alookup st.distances v = some d → d ≠ ⊤ → Reach g s v
  pq_reach : ∀ p ∈ st.pq, Reach g s p.2

/-- Invariant of the BFS loop (between iterations): the visited set equals
the distance keys, queue entries carry their recorded distance, every
recorded distance is witnessed by a walk, queue distances are nondecreasing
and within 1 of each other, every recorded distance is at most one more
than any queued distance, fully-processed vertices have all neighbors
recorded within +1, the start is recorded at 0, and visited vertices are
stored graph vertices. -/
structure BfsInv (g : Graph) (s : Nat) (st : BfsState) : Prop where
  vis_dist : ∀ v, v ∈ st.visited ↔ (alookup st.distances v).isSome
  qdist : ∀ p ∈ st.queue, alookup st.distances p.1 = some p.2
  sound : ∀ v n, alookup st.distances v = some n → ReachN g s v n
  qmono : (st.queue.map Prod.snd).Pairwise (· ≤ ·)
  qnear : ∀ a ∈ st.queue.map Prod.snd, ∀ b ∈ st.queue.map Prod.snd, a ≤ b + 1
  distnear : ∀ v n, alookup st.distances v = some n → ∀ p ∈ st.queue, n ≤ p.2 + 1
  closure : ∀ v, v ∈ st.visited → v ∉ st.queue.map Prod.fst →
    ∀ w ∈ nbrIds g v, w ∈ st.visited ∧
      ∀ n m', alookup st.distances v = some n → alookup st.distances w = some m' →
        m' ≤ n + 1
  start_mem : alookup st.distances s = some 0
  vis_sub : ∀ v, v ∈ st.visited → v ∈ akeys g.vertices

/-- Invariant of the BFS neighbor loop while the popped vertex `cur` (at
distance `d`) is being relaxed and the suffix `l` of its neighbor list is
still unprocessed. -/
structure BfsRelaxInv (g : Graph) (s cur : Nat) (d : Nat)
    (l : List (Nat × Edge)) (st : BfsState) : Prop where
  vis_dist : ∀ v, v ∈ st.visited ↔ (alookup st.distances v).isSome
  qdist : ∀ p ∈ st.queue, alookup st.distances p.1 = some p.2
  sound : ∀ v n, alookup st.distances v = some n → ReachN g s v n
  qrange : ∀ p ∈ st.queue, d ≤ p.2 ∧ p.2 ≤ d + 1
  qmono : (st.queue.map Prod.snd).Pairwise (· ≤ ·)
  distbound : ∀ v n, alookup st.distances v = some n → n ≤ d + 1
  others : ∀ v, v ∈ st.visited → v ∉ st.queue.map Prod.fst → v ≠ cur →
    ∀ w ∈ nbrIds g v, w ∈ st.visited ∧
      ∀ n m', alookup st.distances v = some n → alookup st.distances w = some m' →
        m' ≤ n + 1
  curdone : ∀ w ∈ nbrIds g cur, (∃ e, (w, e) ∈ l) ∨
    (w ∈ st.visited ∧ ∀ m', alookup st.distances w = some m' → m' ≤ d + 1)
  start_mem : alookup st.distances s = some 0
  vis_sub : ∀ v, v ∈ st.visited → v ∈ akeys g.vertices
  cur_dist : alookup st.distances cur = some d
  cur_vis : cur ∈ st.visited

/-- Termination measure of the BFS loop: unvisited stored vertices plus
queue length; every iteration strictly decreases it. -/
def bfsMeasure (g : Graph) (st : BfsState) : Nat :=
  ((akeys g.vertices).filter (fun v => decide (¬ v ∈ st.visited))).length
    + st.queue.length

/-! ## Theorems

First the generic association-list and numeric lemmas, then the claim
theorems. -/

theorem alookup_aset_self {α : Type} (m : List (Nat × α)) (k : Nat) (v : α) :
    alookup (aset m k v) k = some v := by
  induction m with
  | nil => simp [aset, alookup]
  | cons p rest ih =>
    by_cases h : p.1 = k
    · simp [aset, h, alookup]
    · simp [aset, h, alookup, ih]

theorem akeys_cons {α : Type} (p : Nat × α) (rest : List (Nat × α)) :
    akeys (p :: rest) = p.1 :: akeys rest := rfl

theorem alookup_aset_ne {α : Type} (m : List (Nat × α)) (k k' : Nat) (v : α)
    (h : k ≠ k') : alookup (aset m k v) k' = alookup m k' := by
  induction m with
  | nil => simp [aset, alookup, h]
  | cons p rest ih =>
    by_cases hp : p.1 = k
    · have hne : ¬ (k = k') := h
      simp [aset, hp, alookup, hne]
    · simp only [aset, if_neg hp, alookup]
      by_cases hq : p.1 = k'
      · simp [hq]
      · simp [hq, ih]

theorem alookup_isSome_mem_akeys {α : Type} (m : List (Nat × α)) (k : Nat)
    (h : (alookup m k).isSome) : k ∈ akeys m := by
  induction m with
  | nil => simp [alookup] at h
  | cons p rest ih =>
    rw [akeys_cons]
    by_cases hp : p.1 = k
    · exact hp ▸ List.mem_cons_self _ _
    · simp only [alookup, if_neg hp] at h
      exact List.mem_cons_of_mem _ (ih h)

theorem alookup_none_of_not_mem {α : Type} (m : List (Nat × α)) (k : Nat)
    (h : k ∉ akeys m) : alookup m k = none := by
  induction m with
  | nil => rfl
  | cons p rest ih =>
    rw [akeys_cons, List.mem_cons] at h
    push_neg at h
    simp [alookup, Ne.symm h.1, ih h.2]

theorem akeys_aset_of_mem {α : Type} (m : List (Nat × α)) (k : Nat) (v : α)
    (h : k ∈ akeys m) : akeys (aset m k v) = akeys m := by
  induction m with
  | nil => simp [akeys] at h
  | cons p rest ih =>
    by_cases hp : p.1 = k
    · simp [aset, hp, akeys_cons]
    · rw [akeys_cons, List.mem_cons] at h
      rcases h with h | h
      · exact absurd h.symm hp
      · simp only [aset, if_neg hp, akeys_cons, ih h]

theorem akeys_aset_of_not_mem {α : Type} (m : List (Nat × α)) (k : Nat) (v : α)
    (h : k ∉ akeys m) : akeys (aset m k v) = akeys m ++ [k] := by
  induction m with
  | nil => simp [aset, akeys]
  | cons p rest ih =>
    rw [akeys_cons, List.mem_cons] at h
    push_neg at h
    simp only [aset, if_neg (Ne.symm h.1), akeys_cons, ih h.2, List.cons_append]

theorem alookup_some_mem {α : Type} (m : List (Nat × α)) (k : Nat) (v : α)
    (h : alookup m k = some v) : (k, v) ∈ m := by
  induction m with
  | nil => simp [alookup] at h
  | cons p rest ih =>
    by_cases hp : p.1 = k
    · simp only [alookup, if_pos hp] at h
      cases h
      have hkp : (k, p.2) = p := by
        rw [← hp]
      rw [hkp]
      exact List.mem_cons_self _ _
    · simp only [alookup, if_neg hp] at h
      exact List.mem_cons_of_mem _ (ih h)

theorem alookup_aerase_ne {α : Type} (m : List (Nat × α)) (k k' : Nat)
    (h : k ≠ k') : alookup (aerase m k) k' = alookup m k' := by
  induction m with
  | nil => rfl
  | cons p rest ih =>
    by_cases hp : p.1 = k
    · have hne : ¬ p.1 = k' := fun hc => h (hp.symm.trans hc)
      simp [aerase, hp, alookup, hne, h]
    · by_cases hq : p.1 = k'
      · simp [aerase, hp, alookup, hq, Ne.symm h]
      · simp [aerase, hp, alookup, hq, ih]

theorem alookup_aerase_self {α : Type} (m : List (Nat × α)) (k : Nat)
    (h : (akeys m).Nodup) : alookup (aerase m k) k = none := by
  induction m with
  | nil => rfl
  | cons p rest ih =>
    rw [akeys_cons, List.nodup_cons] at h
    by_cases hp : p.1 = k
    · simp only [aerase, if_pos hp]
      apply alookup_none_of_not_mem
      rw [← hp]
      exact h.1
    · simp [aerase, hp, alookup, ih h.2]

theorem akeys_aerase_sublist {α : Type} (m : List (Nat × α)) (k : Nat) :
    (akeys (aerase m k)).Sublist (akeys m) := by
  induction m with
  | nil => exact List.Sublist.refl _
  | cons p rest ih =>
    by_cases hp : p.1 = k
    · simp only [aerase, if_pos hp, akeys_cons]
      exact List.sublist_cons_self _ _
    · simp only [aerase, if_neg hp, akeys_cons]
      exact ih.cons₂ _

theorem akeys_aset_nodup {α : Type} (m : List (Nat × α)) (k : Nat) (v : α)
    (h : (akeys m).Nodup) : (akeys (aset m k v)).Nodup := by
  by_cases hk : k ∈ akeys m
  · rw [akeys_aset_of_mem m k v hk]
    exact h
  · rw [akeys_aset_of_not_mem m k v hk]
    simpa using List.Nodup.append h (by simp) (by simpa using hk)

theorem akeys_aerase_nodup {α : Type} (m : List (Nat × α)) (k : Nat)
    (h : (akeys m).Nodup) : (akeys (aerase m k)).Nodup :=
  (akeys_aerase_sublist m k).nodup h

theorem pyInt_of_nonneg {q : ℚ} (h : 0 ≤ q) : pyInt q = ⌊q⌋ := by
  simp [pyInt, h]

theorem nbrIds_closed {g : Graph} (hwf : g.WF) {u v : Nat}
    (h : v ∈ nbrIds g u) : v ∈ akeys g.vertices := by
  have hadj : (alookup g.adj u).isSome := by
    by_contra hc
    have hnone : alookup g.adj u = none := by
      cases halt : alookup g.adj u with
      | none => rfl
      | some l => rw [halt] at hc; simp at hc
    simp [nbrIds, Graph.neighbors, hnone] at h
  exact hwf.nbr_closed u (alookup_isSome_mem_akeys _ _ hadj) v h

theorem popMinBy_mem {α : Type} (le : α → α → Bool) :
    ∀ (l : List α) (m : α) (rest : List α), popMinBy le l = some (m, rest) →
      m ∈ l ∧ ∀ x ∈ rest, x ∈ l := by
  intro l
  induction l with
  | nil => intro m rest h; simp [popMinBy] at h
  | cons x xs ih =>
    intro m rest h
    simp only [popMinBy] at h
    cases hxs : popMinBy le xs with
    | none =>
      rw [hxs] at h
      cases h
      exact ⟨List.mem_cons_self _ _, by intro y hy; simp at hy⟩
    | some pr =>
      rw [hxs] at h
      by_cases hle : le x pr.1
      · simp only [if_pos hle] at h
        cases h
        exact ⟨List.mem_cons_self _ _, fun y hy => List.mem_cons_of_mem _ hy⟩
      · simp only [if_neg hle] at h
        cases h
        obtain ⟨hm', hrest'⟩ := ih pr.1 pr.2 (by rw [hxs])
        refine ⟨List.mem_cons_of_mem _ hm', ?_⟩
        intro y hy
        rcases List.mem_cons.mp hy with hy | hy
        · exact hy ▸ List.mem_cons_self _ _
        · exact List.mem_cons_of_mem _ (hrest' y hy)

/-! ### C8 — edge weights are stored verbatim, not clamped -/

/-- C8, counterexample: `add_edge` with the supplied weight 0 stores an edge
of weight 0, so the claimed clamping to `weight ≥ 1` does not happen. -/
theorem C8_counterexample :
    ((gTwo.add_edge 0 1 0 EdgeType.NORMAL_TUNNEL).2.map Edge.weight = some 0)
  ∧ ((alookup (gTwo.add_edge 0 1 0 EdgeType.NORMAL_TUNNEL).1.edges 0).map Edge.weight
      = some 0)
  ∧ ¬ (1 ≤ (0 : Int)) := by
  with_unfolding_all decide

/-- C8, amended: for any two stored vertices, `add_edge` stores an edge whose
weight is exactly the supplied weight — no clamping is applied, so
`weight ≥ 1` holds only when the caller supplies a weight `≥ 1`. -/
theorem C8_add_edge_weight_verbatim (g : Graph) (v1_id v2_id : Nat)
    (weight : Int) (t : EdgeType)
    (h1 : (alookup g.vertices v1_id).isSome)
    (h2 : (alookup g.vertices v2_id).isSome) :
    ∃ e, (g.add_edge v1_id v2_id weight t).2 = some e ∧ e.weight = weight ∧
      alookup (g.add_edge v1_id v2_id weight t).1.edges g._next_e_id = some e := by
  refine ⟨Edge.init g._next_e_id v1_id v2_id weight t false, ?_, rfl, ?_⟩
  · simp [Graph.add_edge, h1, h2]
  · simp [Graph.add_edge, h1, h2, alookup_aset_self]

/-- C8, witness: the amended statement evaluated on a concrete graph and a
concrete weight. -/
theorem C8_add_edge_weight_verbatim_witness :
    ((alookup gTwo.vertices 0).isSome ∧ (alookup gTwo.vertices 1).isSome)
  ∧ ∃ e, (gTwo.add_edge 0 1 7 EdgeType.NORMAL_TUNNEL).2 = some e ∧ e.weight = 7 ∧
      alookup (gTwo.add_edge 0 1 7 EdgeType.NORMAL_TUNNEL).1.edges gTwo._next_e_id
        = some e :=
  ⟨⟨by decide, by decide⟩,
    C8_add_edge_weight_verbatim gTwo 0 1 7 EdgeType.NORMAL_TUNNEL
      (by decide) (by decide)⟩

/-! ### C4 — the A* heuristic is not admissible; A* returns a suboptimal cost -/

/-- C4, failing input: on `gAStar` (positions in the plane unrelated to the
edge weights — exactly the situation of the game's own graphs, whose
positions are pixel coordinates), `a_star` returns cost 10 for `0 → 2`
although `dijkstra` finds the true shortest distance 2. The claim's asserted
equality of the two costs, and `a_star`'s own docstring ("finds optimal
path"), both fail here. -/
theorem C4_astar_exceeds_dijkstra :
    a_star gAStar 0 2 = ([0, 2], ((10 : Int) : WithTop Int))
  ∧ alookup (dijkstra gAStar 0 none).fst 2 = some ((2 : Int) : WithTop Int)
  ∧ ((10 : Int) : WithTop Int) ≠ ((2 : Int) : WithTop Int) := by
  with_unfolding_all decide

/-! ### C5 — dijkstra stores explicit infinities for unreachable vertices -/

/-- C5, counterexample: vertex 1 of `gNoEdge` is unreachable from vertex 0,
yet the distance map returned by `dijkstra` contains an explicit entry for
it, with value `float('inf')` (`⊤`) — not an absent entry as claimed. -/
theorem C5_counterexample :
    alookup (dijkstra gNoEdge 0 none).fst 1 = some (⊤ : WithTop Int)
  ∧ ∀ n, ¬ ReachN gNoEdge 0 1 n := by
  constructor
  · with_unfolding_all decide
  · have hadj : ∀ u, nbrIds gNoEdge u = [] := by
      intro u
      have hg : gNoEdge.adj = [(0, []), (1, [])] := rfl
      unfold nbrIds Graph.neighbors
      rw [hg]
      by_cases h0 : (0 : Nat) = u
      · simp [alookup, h0]
      · by_cases h1 : (1 : Nat) = u
        · simp [alookup, h0, h1]
        · simp [alookup, h0, h1]
    intro n h
    cases h with
    | step h' hmem => rw [hadj] at hmem; exact absurd hmem (List.not_mem_nil _)

/-! ### C3 — the collapse chance can leave [0,1] -/

/-- C3, counterexample: a collapsed-type edge that gains fissures has
`collapse_chance = 1.1`, because the `+0.1` fissure bonus is added after the
`min(1.0, ...)` cap. The claimed invariant `collapse_chance ≤ 1` fails after
the one-operation sequence `[add_fissures]`. -/
theorem C3_counterexample :
    (applyEdgeOps (Edge.init 0 0 1 1 EdgeType.COLLAPSED_TUNNEL false)
        [EdgeOp.fissures]).collapse_chance = 11/10
  ∧ ¬ ((applyEdgeOps (Edge.init 0 0 1 1 EdgeType.COLLAPSED_TUNNEL false)
        [EdgeOp.fissures]).collapse_chance ≤ 1) := by
  with_unfolding_all decide

theorem ucc_stability (e : Edge) :
    (Edge._update_collapse_chance e).stability = e.stability := rfl

theorem ucc_edge_type (e : Edge) :
    (Edge._update_collapse_chance e).edge_type = e.edge_type := rfl

/-- Bounds for a single recomputation of the collapse chance: always within
`[0, 1.1]`, and within `[0, 1]` unless the edge is of the collapsed type. -/
theorem ucc_bounds (e : Edge) (h0 : 0 ≤ e.stability) (h1 : e.stability ≤ 100) :
    0 ≤ (Edge._update_collapse_chance e).collapse_chance
  ∧ (Edge._update_collapse_chance e).collapse_chance ≤ 11/10
  ∧ (e.edge_type ≠ EdgeType.COLLAPSED_TUNNEL →
      (Edge._update_collapse_chance e).collapse_chance ≤ 1) := by
  have hq0 : (0 : ℚ) ≤ (e.stability : ℚ) := by exact_mod_cast h0
  have hq1 : (e.stability : ℚ) ≤ 100 := by exact_mod_cast h1
  have hcc : (Edge._update_collapse_chance e).collapse_chance =
      (let base : ℚ := if e.edge_type = EdgeType.UNSTABLE_TUNNEL then 15/100
         else if e.edge_type = EdgeType.COLLAPSED_TUNNEL then 1
         else if e.edge_type = EdgeType.REINFORCED_TUNNEL then 1/100 else 0
       let sf : ℚ := ((100 - e.stability : Int) : ℚ) / 100
       let m : ℚ := min 1 (base + sf * (3/10))
       let cf : ℚ := if e.has_fissures then m + 1/10 else m
       if e.reinforced then cf * (3/10) else cf) := rfl
  rw [hcc]
  simp only
  set base : ℚ := (if e.edge_type = EdgeType.UNSTABLE_TUNNEL then (15/100 : ℚ)
    else if e.edge_type = EdgeType.COLLAPSED_TUNNEL then 1
    else if e.edge_type = EdgeType.REINFORCED_TUNNEL then 1/100 else 0) with hbase
  set sf : ℚ := ((100 - e.stability : Int) : ℚ) / 100 with hsfdef
  have hsf0 : (0 : ℚ) ≤ sf := by
    rw [hsfdef]
    apply div_nonneg _ (by norm_num)
    push_cast
    linarith
  have hsf1 : sf ≤ 1 := by
    rw [hsfdef, div_le_one (by norm_num : (0:ℚ) < 100)]
    push_cast
    linarith
  have hb0 : 0 ≤ base := by
    rw [hbase]
    split_ifs <;> norm_num
  have hbn : e.edge_type ≠ EdgeType.COLLAPSED_TUNNEL → base ≤ 15/100 := by
    intro hne
    rw [hbase]
    by_cases ha : e.edge_type = EdgeType.UNSTABLE_TUNNEL
    · rw [if_pos ha]
    · rw [if_neg ha, if_neg hne]
      by_cases hb : e.edge_type = EdgeType.REINFORCED_TUNNEL
      · rw [if_pos hb]
        norm_num
      · rw [if_neg hb]
        norm_num
  set m : ℚ := min 1 (base + sf * (3/10)) with hmdef
  have hm0 : (0:ℚ) ≤ m := le_min (by norm_num) (by nlinarith)
  have hm1 : m ≤ 1 := min_le_left _ _
  have hmn : e.edge_type ≠ EdgeType.COLLAPSED_TUNNEL → m ≤ 45/100 := by
    intro hne
    have := hbn hne
    calc m ≤ base + sf * (3/10) := min_le_right _ _
    _ ≤ 45/100 := by nlinarith
  by_cases hf : e.has_fissures <;> by_cases hr : e.reinforced <;>
    simp [hf, hr] <;>
    refine ⟨by nlinarith, by nlinarith, fun hne => ?_⟩ <;>
    have := hmn hne <;> nlinarith

/-- C3, amended: starting from any edge type and any stability in `[0,100]`
(the edge's collapse chance being the derived one), any sequence of
`damage_stability` (with nonnegative damage amounts, as the spec's
"reduces stability" intends), `reinforce` and `add_fissures` keeps
`collapse_chance` within `[0, 1.1]`, and within `[0, 1]` whenever the edge's
type is not `COLLAPSED_TUNNEL`; the bound 1.1 is attained (see the
counterexample), because the fissure bonus is added after the `min` cap. -/
theorem C3_collapse_chance_bounds (ops : List EdgeOp) : ∀ (e : Edge),
    0 ≤ e.stability → e.stability ≤ 100 →
    (∀ a, EdgeOp.damage a ∈ ops → 0 ≤ a) →
    0 ≤ (applyEdgeOps (Edge._update_collapse_chance e) ops).collapse_chance
  ∧ (applyEdgeOps (Edge._update_collapse_chance e) ops).collapse_chance ≤ 11/10
  ∧ ((applyEdgeOps (Edge._update_collapse_chance e) ops).edge_type
        ≠ EdgeType.COLLAPSED_TUNNEL →
      (applyEdgeOps (Edge._update_collapse_chance e) ops).collapse_chance ≤ 1) := by
  induction ops with
  | nil =>
    intro e h0 h1 _
    exact ucc_bounds e h0 h1
  | cons op rest ih =>
    intro e h0 h1 hops
    have hops' : ∀ a, EdgeOp.damage a ∈ rest → 0 ≤ a :=
      fun a ha => hops a (List.mem_cons_of_mem _ ha)
    cases op with
    | damage a =>
      have ha : 0 ≤ a := hops a (List.mem_cons_self _ _)
      show (applyEdgeOps (applyEdgeOp (Edge._update_collapse_chance e)
        (EdgeOp.damage a)) rest).collapse_chance ≥ 0 ∧ _ ∧ _
      have hsh : applyEdgeOp (Edge._update_collapse_chance e) (EdgeOp.damage a)
          = Edge._update_collapse_chance
              { Edge._update_collapse_chance e with
                stability := max 0 (e.stability - a) } := rfl
      rw [hsh]
      refine ih _ ?_ ?_ hops'
      · show (0 : Int) ≤ max 0 (e.stability - a)
        exact le_max_left _ _
      · show max 0 (e.stability - a) ≤ 100
        omega
    | reinforce =>
      show (applyEdgeOps (applyEdgeOp (Edge._update_collapse_chance e)
        EdgeOp.reinforce) rest).collapse_chance ≥ 0 ∧ _ ∧ _
      have hsh : applyEdgeOp (Edge._update_collapse_chance e) EdgeOp.reinforce
          = Edge._update_collapse_chance
              { Edge._update_collapse_chance e with
                reinforced := true, stability := min 100 (e.stability + 30) } := rfl
      rw [hsh]
      refine ih _ ?_ ?_ hops'
      · show (0 : Int) ≤ min 100 (e.stability + 30)
        omega
      · show min 100 (e.stability + 30) ≤ 100
        exact min_le_left _ _
    | fissures =>
      show (applyEdgeOps (applyEdgeOp (Edge._update_collapse_chance e)
        EdgeOp.fissures) rest).collapse_chance ≥ 0 ∧ _ ∧ _
      have hsh : applyEdgeOp (Edge._update_collapse_chance e) EdgeOp.fissures
          = Edge._update_collapse_chance
              { Edge._update_collapse_chance e with has_fissures := true } := rfl
      rw [hsh]
      exact ih _ h0 h1 hops'

/-- C3, witness: the amended bounds evaluated on a fresh unstable tunnel and
a sample operation sequence. -/
theorem C3_collapse_chance_bounds_witness :
    ((0 : Int) ≤ 100 ∧ (100 : Int) ≤ 100
      ∧ (∀ a, EdgeOp.damage a ∈ [EdgeOp.damage 40, EdgeOp.fissures, EdgeOp.reinforce] → 0 ≤ a))
  ∧ (0 ≤ (applyEdgeOps (Edge._update_collapse_chance
        (Edge.init 0 0 1 2 EdgeType.UNSTABLE_TUNNEL false))
        [EdgeOp.damage 40, EdgeOp.fissures, EdgeOp.reinforce]).collapse_chance
    ∧ (applyEdgeOps (Edge._update_collapse_chance
        (Edge.init 0 0 1 2 EdgeType.UNSTABLE_TUNNEL false))
        [EdgeOp.damage 40, EdgeOp.fissures, EdgeOp.reinforce]).collapse_chance ≤ 11/10
    ∧ ((applyEdgeOps (Edge._update_collapse_chance
          (Edge.init 0 0 1 2 EdgeType.UNSTABLE_TUNNEL false))
          [EdgeOp.damage 40, EdgeOp.fissures, EdgeOp.reinforce]).edge_type
            ≠ EdgeType.COLLAPSED_TUNNEL →
        (applyEdgeOps (Edge._update_collapse_chance
          (Edge.init 0 0 1 2 EdgeType.UNSTABLE_TUNNEL false))
          [EdgeOp.damage 40, EdgeOp.fissures, EdgeOp.reinforce]).collapse_chance ≤ 1)) :=
  ⟨⟨by decide, by decide, by
      intro a ha
      simp at ha
      subst ha
      decide⟩,
    C3_collapse_chance_bounds
      [EdgeOp.damage 40, EdgeOp.fissures, EdgeOp.reinforce]
      (Edge.init 0 0 1 2 EdgeType.UNSTABLE_TUNNEL false)
      (by with_unfolding_all decide) (by with_unfolding_all decide)
      (by
        intro a ha
        simp at ha
        subst ha
        decide)⟩

/-! ### C2 — at most one non-terminal encounter per player -/

/-- C2: if some registered combat instance for this player id is not yet
ended, `trigger_combat` registers nothing new — the instance list is
returned unchanged — and the returned result is the `get_result` of such an
already-active instance (the first one in registration order). -/
theorem C2_no_duplicate_encounter (st : GState) (player : Player)
    (vertex : Vertex) (goldRoll : Int) (itemDrops : List String)
    (h : ∃ inst ∈ st.active_instances,
      inst.player.id = player.id ∧ inst.ended = false) :
    (trigger_combat st player vertex goldRoll itemDrops).2 = st
  ∧ ∃ inst ∈ st.active_instances, inst.player.id = player.id ∧ inst.ended = false
      ∧ (trigger_combat st player vertex goldRoll itemDrops).1
          = inst.get_result goldRoll itemDrops := by
  obtain ⟨i0, hi0, hid0, hend0⟩ := h
  have hex : ∃ i, st.active_instances.find?
      (fun inst => inst.player.id = player.id && !inst.ended) = some i := by
    cases hf : st.active_instances.find?
        (fun inst => inst.player.id = player.id && !inst.ended) with
    | none =>
      have := List.find?_eq_none.mp hf i0 hi0
      simp [hid0, hend0] at this
    | some i => exact ⟨i, rfl⟩
  obtain ⟨i, hfind⟩ := hex
  have hmem : i ∈ st.active_instances := List.mem_of_find?_eq_some hfind
  have hprop := List.find?_some hfind
  simp only [Bool.and_eq_true, decide_eq_true_eq, Bool.not_eq_true'] at hprop
  constructor
  · simp [trigger_combat, hfind]
  · exact ⟨i, hmem, hprop.1, hprop.2, by simp [trigger_combat, hfind]⟩

/-- C2, witness: the guard fires on a state that already holds a
non-terminal instance for the player. -/
theorem C2_no_duplicate_encounter_witness :
    (∃ inst ∈ gsDuel.active_instances,
      inst.player.id = pDuel.id ∧ inst.ended = false)
  ∧ ((trigger_combat gsDuel pDuel vCave 3 []).2 = gsDuel
    ∧ ∃ inst ∈ gsDuel.active_instances, inst.player.id = pDuel.id
        ∧ inst.ended = false
        ∧ (trigger_combat gsDuel pDuel vCave 3 []).1 = inst.get_result 3 []) :=
  ⟨⟨TickCombatInstance.init pDuel mDuel, by with_unfolding_all decide⟩,
    C2_no_duplicate_encounter gsDuel pDuel vCave 3 []
      ⟨TickCombatInstance.init pDuel mDuel, by with_unfolding_all decide⟩⟩

/-! ### C9 — the defender's defense is subtracted twice per resolved hit -/

/-- The raw damage of a non-critical hit is at least 1 and at most
`⌈1.2 · max(1, attack − defense)⌉`. -/
theorem calculate_damage_bounds (atk dfn : Int) (u : ℚ)
    (h1 : 4/5 ≤ u) (h2 : u ≤ 6/5) :
    1 ≤ calculate_damage atk dfn false u
  ∧ calculate_damage atk dfn false u
      ≤ ⌈(6/5 : ℚ) * ((max 1 (atk - dfn) : Int) : ℚ)⌉ := by
  have hcd : calculate_damage atk dfn false u
      = max 1 (pyInt ((max 1 (atk - dfn) : Int) * u)) := rfl
  set b : Int := max 1 (atk - dfn) with hbdef
  have hb1 : (1 : Int) ≤ b := le_max_left _ _
  have hbq : (1 : ℚ) ≤ (b : ℚ) := by exact_mod_cast hb1
  have hbu0 : (0 : ℚ) ≤ (b : ℚ) * u := by nlinarith
  have hceil1 : (1 : Int) ≤ ⌈(6/5 : ℚ) * (b : ℚ)⌉ := by
    have hpos : (0 : ℚ) < (6/5 : ℚ) * (b : ℚ) := by nlinarith
    have := Int.ceil_pos.mpr hpos
    omega
  refine ⟨le_max_left _ _, ?_⟩
  rw [hcd]
  apply max_le hceil1
  rw [pyInt_of_nonneg hbu0]
  calc ⌊(b : ℚ) * u⌋ ≤ ⌊(6/5 : ℚ) * (b : ℚ)⌋ :=
        Int.floor_le_floor (by nlinarith)
  _ ≤ ⌈(6/5 : ℚ) * (b : ℚ)⌉ := Int.floor_le_ceil _

/-- C9: `calculate_damage` already subtracts the defender's defense (before
variance), and `take_damage` subtracts the same defense again (with a floor
of 1 damage and hp floored at 0) — for a monster defender and for a player
defender without buffs alike. Consequently the net hp loss of one
non-critical hit never exceeds `max(1, ⌈1.2·max(1, attack−defense)⌉ −
defense)`. -/
theorem C9_defense_subtracted_twice (m : Monster) (p : Player) (atk : Int)
    (u : ℚ) (h1 : 4/5 ≤ u) (h2 : u ≤ 6/5) (hb : p.buffs = []) :
    ((m.take_damage (calculate_damage atk m.defense false u)).2
        = max 1 (calculate_damage atk m.defense false u - m.defense)
      ∧ m.hp - (m.take_damage (calculate_damage atk m.defense false u)).1.hp
        ≤ max 1 (⌈(6/5 : ℚ) * ((max 1 (atk - m.defense) : Int) : ℚ)⌉ - m.defense))
  ∧ ((p.take_damage (calculate_damage atk p.defense false u)).2
        = max 1 (calculate_damage atk p.defense false u - p.defense)
      ∧ p.hp - (p.take_damage (calculate_damage atk p.defense false u)).1.hp
        ≤ max 1 (⌈(6/5 : ℚ) * ((max 1 (atk - p.defense) : Int) : ℚ)⌉ - p.defense)) := by
  have hnobuff : ∀ bt, p.has_buff bt = false := by
    intro bt
    simp [Player.has_buff, hb]
  constructor
  · set raw := calculate_damage atk m.defense false u with hraw
    obtain ⟨hr1, hr2⟩ := calculate_damage_bounds atk m.defense u h1 h2
    constructor
    · rfl
    · show m.hp - max 0 (m.hp - max 1 (raw - m.defense)) ≤ _
      have happl : max 1 (raw - m.defense)
          ≤ max 1 (⌈(6/5 : ℚ) * ((max 1 (atk - m.defense) : Int) : ℚ)⌉ - m.defense) :=
        max_le_max (le_refl _) (by omega)
      have hloss : m.hp - max 0 (m.hp - max 1 (raw - m.defense))
          ≤ max 1 (raw - m.defense) := by omega
      omega
  · set raw := calculate_damage atk p.defense false u with hraw
    obtain ⟨hr1, hr2⟩ := calculate_damage_bounds atk p.defense u h1 h2
    have htd2 : (p.take_damage raw).2 = max 1 (raw - p.defense) := by
      simp [Player.take_damage, hnobuff]
    have htd1 : (p.take_damage raw).1.hp = max 0 (p.hp - max 1 (raw - p.defense)) := by
      simp [Player.take_damage, hnobuff]
    refine ⟨htd2, ?_⟩
    rw [htd1]
    have happl : max 1 (raw - p.defense)
        ≤ max 1 (⌈(6/5 : ℚ) * ((max 1 (atk - p.defense) : Int) : ℚ)⌉ - p.defense) :=
      max_le_max (le_refl _) (by omega)
    omega

/-- C9, witness: the double subtraction evaluated at `attack = 10` against
the default goblin and a fresh player, with unit variance. -/
theorem C9_defense_subtracted_twice_witness :
    ((4/5 : ℚ) ≤ 1 ∧ (1 : ℚ) ≤ 6/5 ∧
      (Player.mk 0 0 100 100 10 5 (1/10) (1/10) 100 100 1 [] true).buffs = [])
  ∧ (((Monster.init MonsterType.GOBLIN 1).take_damage
        (calculate_damage 10 (Monster.init MonsterType.GOBLIN 1).defense false 1)).2
        = max 1 (calculate_damage 10 (Monster.init MonsterType.GOBLIN 1).defense false 1
            - (Monster.init MonsterType.GOBLIN 1).defense)
      ∧ (Monster.init MonsterType.GOBLIN 1).hp
          - ((Monster.init MonsterType.GOBLIN 1).take_damage
            (calculate_damage 10 (Monster.init MonsterType.GOBLIN 1).defense false 1)).1.hp
        ≤ max 1 (⌈(6/5 : ℚ) * ((max 1 (10 - (Monster.init MonsterType.GOBLIN 1).defense) : Int) : ℚ)⌉
            - (Monster.init MonsterType.GOBLIN 1).defense))
  ∧ (((Player.mk 0 0 100 100 10 5 (1/10) (1/10) 100 100 1 [] true).take_damage
        (calculate_damage 10 (Player.mk 0 0 100 100 10 5 (1/10) (1/10) 100 100 1 [] true).defense false 1)).2
        = max 1 (calculate_damage 10 (Player.mk 0 0 100 100 10 5 (1/10) (1/10) 100 100 1 [] true).defense false 1
            - (Player.mk 0 0 100 100 10 5 (1/10) (1/10) 100 100 1 [] true).defense)
      ∧ (Player.mk 0 0 100 100 10 5 (1/10) (1/10) 100 100 1 [] true).hp
          - ((Player.mk 0 0 100 100 10 5 (1/10) (1/10) 100 100 1 [] true).take_damage
            (calculate_damage 10 (Player.mk 0 0 100 100 10 5 (1/10) (1/10) 100 100 1 [] true).defense false 1)).1.hp
        ≤ max 1 (⌈(6/5 : ℚ) * ((max 1 (10 - (Player.mk 0 0 100 100 10 5 (1/10) (1/10) 100 100 1 [] true).defense) : Int) : ℚ)⌉
            - (Player.mk 0 0 100 100 10 5 (1/10) (1/10) 100 100 1 [] true).defense)) :=
  ⟨⟨by norm_num, by norm_num, rfl⟩,
    C9_defense_subtracted_twice (Monster.init MonsterType.GOBLIN 1)
      (Player.mk 0 0 100 100 10 5 (1/10) (1/10) 100 100 1 [] true) 10 1
      (by norm_num) (by norm_num) rfl⟩

/-! ### Helper lemmas about the combat tick -/

theorem checkEnd_player (b : TickCombatInstance) :
    (TickCombatInstance.checkEnd b).player = b.player := by
  unfold TickCombatInstance.checkEnd
  split_ifs <;> rfl

theorem checkEnd_monster (b : TickCombatInstance) :
    (TickCombatInstance.checkEnd b).monster = b.monster := by
  unfold TickCombatInstance.checkEnd
  split_ifs <;> rfl

theorem checkEnd_player_timer (b : TickCombatInstance) :
    (TickCombatInstance.checkEnd b).player_timer = b.player_timer := by
  unfold TickCombatInstance.checkEnd
  split_ifs <;> rfl

theorem checkEnd_ended_of_player_dead (b : TickCombatInstance)
    (h : b.player.is_alive = false) :
    (TickCombatInstance.checkEnd b).ended = true := by
  unfold TickCombatInstance.checkEnd
  rw [if_pos h]

theorem take_damage_stamina (p : Player) (amt : Int) :
    (p.take_damage amt).1.stamina = p.stamina := by
  unfold Player.take_damage
  split_ifs <;> rfl

theorem consume_stamina_of_le (p : Player) (h : 5 ≤ p.stamina) :
    (p.consume_stamina 5).1 = { p with stamina := p.stamina - 5 } := by
  simp [Player.consume_stamina, h]

theorem calculate_damage_one_le (a d : Int) (c : Bool) (u : ℚ) :
    1 ≤ calculate_damage a d c u :=
  le_max_left _ _

theorem calculate_damage_ne_zero (a d : Int) (c : Bool) (u : ℚ) :
    calculate_damage a d c u ≠ 0 := by
  have := calculate_damage_one_le a d c u
  omega

theorem has_buff_stamina (p : Player) (s : Int) (bt : BuffType) :
    ({ p with stamina := s } : Player).has_buff bt = p.has_buff bt := rfl

theorem ged_stamina (p : Player) (s : Int) :
    ({ p with stamina := s } : Player).get_effective_defense
      = p.get_effective_defense := rfl

theorem take_damage_hp_stamina (p : Player) (s : Int) (amt : Int) :
    (({ p with stamina := s } : Player).take_damage amt).1.hp
      = (p.take_damage amt).1.hp := by
  unfold Player.take_damage
  simp only [has_buff_stamina]
  split_ifs <;> rfl

theorem has_buff_stamina_alive (p : Player) (s : Int) (al : Bool) (bt : BuffType) :
    ({ p with stamina := s, is_alive := al } : Player).has_buff bt
      = p.has_buff bt := rfl

theorem ged_stamina_alive (p : Player) (s : Int) (al : Bool) :
    ({ p with stamina := s, is_alive := al } : Player).get_effective_defense
      = p.get_effective_defense := rfl

theorem take_damage_hp_stamina_alive (p : Player) (s : Int) (al : Bool) (amt : Int) :
    (({ p with stamina := s, is_alive := al } : Player).take_damage amt).1.hp
      = (p.take_damage amt).1.hp := by
  unfold Player.take_damage
  simp only [has_buff_stamina_alive]
  split_ifs <;> rfl

/-! ### C10 — the attack timer resets even without stamina; attacks cost
exactly 5 stamina; the monster is never stamina-gated -/

/-- C10: in a tick where the player is alive with a charged attack timer,
(1) with stamina below 5 the player loses the attack opportunity — no damage
reaches the monster — yet the timer is still reset to 0 and the stamina is
untouched; (2) with stamina at least 5 the attack consumes exactly 5
stamina (and the timer resets); (3) whenever the monster is alive and its
timer is charged, its attack lands on the player regardless of the player's
stamina — the monster has no stamina gate at all. -/
theorem C10_stamina_gating (inst : TickCombatInstance) (delta : ℚ)
    (pcrit : Bool) (pu : ℚ) (mcrit : Bool) (mu : ℚ)
    (hend : inst.ended = false)
    (halive : inst.player.is_alive = true)
    (hready : inst.player_cooldown ≤ inst.player_timer + delta) :
    (inst.player.stamina < 5 →
        (inst.tick delta pcrit pu mcrit mu).player_timer = 0
      ∧ (inst.tick delta pcrit pu mcrit mu).player.stamina = inst.player.stamina
      ∧ (inst.tick delta pcrit pu mcrit mu).monster = inst.monster)
  ∧ (5 ≤ inst.player.stamina →
        (inst.tick delta pcrit pu mcrit mu).player_timer = 0
      ∧ (inst.tick delta pcrit pu mcrit mu).player.stamina
          = inst.player.stamina - 5)
  ∧ (inst.monster.is_alive = true →
      inst.monster_cooldown ≤ inst.monster_timer + delta →
        (inst.tick delta pcrit pu mcrit mu).player.hp
          = ((inst.player.take_damage (calculate_damage inst.monster.attack
              inst.player.get_effective_defense mcrit mu)).1).hp) := by
  refine ⟨?_, ?_, ?_⟩
  · intro hst
    have hst' : ¬ (5 ≤ inst.player.stamina) := by omega
    by_cases hma : inst.monster.is_alive = true <;>
      by_cases hmr : inst.monster_cooldown ≤ inst.monster_timer + delta <;>
      simp [TickCombatInstance.tick, hend, halive, hready, hst', hma, hmr,
        checkEnd_player, checkEnd_monster, checkEnd_player_timer,
        take_damage_stamina, calculate_damage_ne_zero]
  · intro hst
    by_cases hma : inst.monster.is_alive = true <;>
      by_cases hmr : inst.monster_cooldown ≤ inst.monster_timer + delta <;>
      simp [TickCombatInstance.tick, hend, halive, hready, hst, hma, hmr,
        checkEnd_player, checkEnd_monster, checkEnd_player_timer,
        take_damage_stamina, calculate_damage_ne_zero, Player.consume_stamina]
  · intro hma hmr
    have hcond : inst.player.is_alive = true
        ∧ inst.player_cooldown ≤ inst.player_timer + delta := ⟨halive, hready⟩
    by_cases hst : 5 ≤ inst.player.stamina <;>
      simp [TickCombatInstance.tick, hend, hcond, hst, hma, hmr,
        checkEnd_player, calculate_damage_ne_zero, Player.consume_stamina,
        ged_stamina, take_damage_hp_stamina,
        ged_stamina_alive, take_damage_hp_stamina_alive]

/-- C10, witness: the hypotheses and conclusion at the concrete duel
instance with `delta = 1`. -/
theorem C10_stamina_gating_witness :
    (instDuel.ended = false ∧ instDuel.player.is_alive = true
      ∧ instDuel.player_cooldown ≤ instDuel.player_timer + 1)
  ∧ ((instDuel.player.stamina < 5 →
        (instDuel.tick 1 false 1 false 1).player_timer = 0
      ∧ (instDuel.tick 1 false 1 false 1).player.stamina = instDuel.player.stamina
      ∧ (instDuel.tick 1 false 1 false 1).monster = instDuel.monster)
    ∧ (5 ≤ instDuel.player.stamina →
        (instDuel.tick 1 false 1 false 1).player_timer = 0
      ∧ (instDuel.tick 1 false 1 false 1).player.stamina
          = instDuel.player.stamina - 5)
    ∧ (instDuel.monster.is_alive = true →
        instDuel.monster_cooldown ≤ instDuel.monster_timer + 1 →
        (instDuel.tick 1 false 1 false 1).player.hp
          = ((instDuel.player.take_damage (calculate_damage instDuel.monster.attack
              instDuel.player.get_effective_defense false 1)).1).hp)) :=
  ⟨⟨rfl, rfl, by with_unfolding_all decide⟩,
    C10_stamina_gating instDuel 1 false 1 false 1 rfl rfl
      (by with_unfolding_all decide)⟩

/-! ### C1 — mutual kill: both die in one tick, but the result still
designates the player as winner -/

/-- C1, counterexample: in the concrete mutual-kill tick both hp values end
at 0 and the encounter is terminal — but `get_result` designates the player
as the winner (`player_won = True`) while also marking the player dead, so
the claim's "neither side is designated the winner" is false. -/
theorem C1_counterexample :
    (instDuel.tick 1 false 1 false 1).player.hp = 0
  ∧ (instDuel.tick 1 false 1 false 1).monster.hp = 0
  ∧ (instDuel.tick 1 false 1 false 1).ended = true
  ∧ ((instDuel.tick 1 false 1 false 1).get_result 0 []).player_won = true
  ∧ ((instDuel.tick 1 false 1 false 1).get_result 0 []).player_died = true := by
  with_unfolding_all decide

theorem take_damage_kill (p : Player) (amt : Int) (hb : p.buffs = [])
    (hk : p.hp ≤ max 1 (amt - p.defense)) :
    (p.take_damage amt).1.hp = 0 ∧ (p.take_damage amt).1.is_alive = false := by
  have hnb : ∀ bt, p.has_buff bt = false := by
    intro bt
    simp [Player.has_buff, hb]
  unfold Player.take_damage
  simp only [hnb, Bool.false_eq_true, if_false]
  constructor
  · show max 0 (p.hp - max 1 (amt - p.defense)) = 0
    omega
  · show (if max 0 (p.hp - max 1 (amt - p.defense)) ≤ 0 then false else p.is_alive)
        = false
    rw [if_pos (by omega)]

theorem checkEnd_ended_of_dead (b : TickCombatInstance)
    (h : (TickCombatInstance.checkEnd b).player.is_alive = false) :
    (TickCombatInstance.checkEnd b).ended = true := by
  rw [checkEnd_player] at h
  exact checkEnd_ended_of_player_dead b h

theorem gea_stamina_alive (p : Player) (s : Int) (al : Bool) :
    ({ p with stamina := s, is_alive := al } : Player).get_effective_attack
      = p.get_effective_attack := rfl

theorem take_damage_fst_stamina_alive (p : Player) (s : Int) (al : Bool)
    (amt : Int) (hb : p.buffs = []) (hk : p.hp ≤ max 1 (amt - p.defense)) :
    (({ p with stamina := s, is_alive := al } : Player).take_damage amt).1.hp = 0
  ∧ (({ p with stamina := s, is_alive := al } : Player).take_damage amt).1.is_alive
      = false :=
  take_damage_kill ({ p with stamina := s, is_alive := al }) amt hb hk

theorem monster_take_damage_hp (m : Monster) (amt : Int) :
    (m.take_damage amt).1.hp = max 0 (m.hp - max 1 (amt - m.defense)) := rfl

/-- C1, amended: under the claim's hypotheses (both alive, both timers
charged, stamina ≥ 5, each side's damage after the defender's
`take_damage` defense reduction at least the opponent's hp, no active
player buffs), both damages are indeed applied against the pre-tick hp
values: after the tick both hp values are 0 and the encounter is terminal.
But the result does designate a winner — `get_result` reports
`player_won = True` (the monster is dead) and simultaneously
`player_died = True`, instead of "no designated winner". -/
theorem C1_mutual_kill (inst : TickCombatInstance) (delta : ℚ)
    (pcrit : Bool) (pu : ℚ) (mcrit : Bool) (mu : ℚ)
    (goldRoll : Int) (itemDrops : List String)
    (hend : inst.ended = false)
    (halive : inst.player.is_alive = true)
    (hmalive : inst.monster.is_alive = true)
    (hready : inst.player_cooldown ≤ inst.player_timer + delta)
    (hmready : inst.monster_cooldown ≤ inst.monster_timer + delta)
    (hstam : 5 ≤ inst.player.stamina)
    (hbuffs : inst.player.buffs = [])
    (hkillm : inst.monster.hp
      ≤ max 1 (calculate_damage inst.player.get_effective_attack
          inst.monster.defense pcrit pu - inst.monster.defense))
    (hkillp : inst.player.hp
      ≤ max 1 (calculate_damage inst.monster.attack
          inst.player.get_effective_defense mcrit mu - inst.player.defense)) :
    (inst.tick delta pcrit pu mcrit mu).player.hp = 0
  ∧ (inst.tick delta pcrit pu mcrit mu).monster.hp = 0
  ∧ (inst.tick delta pcrit pu mcrit mu).ended = true
  ∧ ((inst.tick delta pcrit pu mcrit mu).get_result goldRoll itemDrops).player_won
      = true
  ∧ ((inst.tick delta pcrit pu mcrit mu).get_result goldRoll itemDrops).player_died
      = true := by
  have hcond : inst.player.is_alive = true
      ∧ inst.player_cooldown ≤ inst.player_timer + delta := ⟨halive, hready⟩
  have hmcond : inst.monster.is_alive = true
      ∧ inst.monster_cooldown ≤ inst.monster_timer + delta := ⟨hmalive, hmready⟩
  have hphp : (inst.tick delta pcrit pu mcrit mu).player.hp = 0 := by
    simp [TickCombatInstance.tick, hend, hcond, hmcond, hstam,
      calculate_damage_ne_zero, Player.consume_stamina, checkEnd_player,
      ged_stamina_alive]
    rw [(take_damage_fst_stamina_alive inst.player _ _ _ hbuffs hkillp).1]
  have hpal : (inst.tick delta pcrit pu mcrit mu).player.is_alive = false := by
    simp [TickCombatInstance.tick, hend, hcond, hmcond, hstam,
      calculate_damage_ne_zero, Player.consume_stamina, checkEnd_player,
      ged_stamina_alive]
    rw [(take_damage_fst_stamina_alive inst.player _ _ _ hbuffs hkillp).2]
  have hmhp : (inst.tick delta pcrit pu mcrit mu).monster.hp = 0 := by
    simp [TickCombatInstance.tick, hend, hcond, hmcond, hstam,
      calculate_damage_ne_zero, Player.consume_stamina, checkEnd_monster,
      gea_stamina_alive, monster_take_damage_hp]
    omega
  have hended : (inst.tick delta pcrit pu mcrit mu).ended = true := by
    have hpal' := hpal
    simp [TickCombatInstance.tick, hend, hcond, hmcond, hstam,
      calculate_damage_ne_zero, Player.consume_stamina] at hpal' ⊢
    exact checkEnd_ended_of_dead _ hpal'
  refine ⟨hphp, hmhp, hended, ?_, ?_⟩
  · simp [TickCombatInstance.get_result, Monster.is_alive, hmhp]
  · simp [TickCombatInstance.get_result, hpal]

/-- C1, witness: the amended mutual-kill statement applied to a concrete
duel in which both sides one-shot each other. -/
theorem C1_mutual_kill_witness :
    (instDuel.ended = false ∧ instDuel.player.is_alive = true
      ∧ instDuel.monster.is_alive = true
      ∧ instDuel.player_cooldown ≤ instDuel.player_timer + 1
      ∧ instDuel.monster_cooldown ≤ instDuel.monster_timer + 1
      ∧ 5 ≤ instDuel.player.stamina ∧ instDuel.player.buffs = []
      ∧ instDuel.monster.hp
          ≤ max 1 (calculate_damage instDuel.player.get_effective_attack
              instDuel.monster.defense false 1 - instDuel.monster.defense)
      ∧ instDuel.player.hp
          ≤ max 1 (calculate_damage instDuel.monster.attack
              instDuel.player.get_effective_defense false 1 - instDuel.player.defense))
  ∧ ((instDuel.tick 1 false 1 false 1).player.hp = 0
    ∧ (instDuel.tick 1 false 1 false 1).monster.hp = 0
    ∧ (instDuel.tick 1 false 1 false 1).ended = true
    ∧ ((instDuel.tick 1 false 1 false 1).get_result 7 []).player_won = true
    ∧ ((instDuel.tick 1 false 1 false 1).get_result 7 []).player_died = true) :=
  ⟨⟨rfl, rfl, rfl, by with_unfolding_all decide, by with_unfolding_all decide,
      by with_unfolding_all decide, rfl, by with_unfolding_all decide,
      by with_unfolding_all decide⟩,
    C1_mutual_kill instDuel 1 false 1 false 1 7 [] rfl rfl rfl
      (by with_unfolding_all decide) (by with_unfolding_all decide)
      (by with_unfolding_all decide) rfl
      (by with_unfolding_all decide) (by with_unfolding_all decide)⟩

/-! ### C6 — monster detection/chase is disabled: update forces idle -/

/-- C6, counterexample: a patrolling live goblin with a live player standing
on its own vertex (Dijkstra distance 0 ≤ vision range 3, as
`_detect_player_in_range` confirms) is NOT transitioned to chase by
`MonsterSystem.update` — it is forced to `idle` with no aggro target. -/
theorem C6_counterexample :
    _detect_player_in_range gsCave msCave = some pCave
  ∧ (alookup (MonsterSystem.update gsCave (1/10)).active_monsters 0).map
      MonsterState.state = some ("idle")
  ∧ (alookup (MonsterSystem.update gsCave (1/10)).active_monsters 0).map
      MonsterState.aggro_target = some none
  ∧ ("idle" : String) ≠ "chase" := by
  with_unfolding_all decide

theorem mem_aset {α : Type} (m : List (Nat × α)) (k : Nat) (v : α)
    (p : Nat × α) (h : p ∈ aset m k v) : p ∈ m ∨ p = (k, v) := by
  induction m with
  | nil =>
    simp [aset] at h
    exact Or.inr h
  | cons q rest ih =>
    by_cases hq : q.1 = k
    · simp only [aset, if_pos hq] at h
      rcases List.mem_cons.mp h with h | h
      · exact Or.inr h
      · exact Or.inl (List.mem_cons_of_mem _ h)
    · simp only [aset, if_neg hq] at h
      rcases List.mem_cons.mp h with h | h
      · exact Or.inl (h ▸ List.mem_cons_self _ _)
      · rcases ih h with h | h
        · exact Or.inl (List.mem_cons_of_mem _ h)
        · exact Or.inr h

/-- The spawn fold only touches `active_monsters` through `aset` with
freshly-built states keyed by their own vertex. -/
theorem spawnFold_active (l : List (Nat × Vertex)) : ∀ (acc : GState),
    ((akeys acc.active_monsters).Nodup →
      (akeys (l.foldl (fun acc p =>
        if p.2.has_monster = true ∧ alookup acc.active_monsters p.1 = none then
          { acc with
            active_monsters := aset acc.active_monsters p.1
              ({ MonsterState.init
                  (Monster.init (parseMonsterType p.2.monster_type)
                    (if p.1 = 2 then 2 else if p.1 = 5 then 4 else 1))
                  p.1 (p.1 :: (nbrIds acc.graph p.1).take 1) with
                state := if 1 < (p.1 :: (nbrIds acc.graph p.1).take 1).length
                  then "patrol" else "idle" }),
            graph := { acc.graph with
              vertices := amodify acc.graph.vertices p.1
                (fun vt => { vt with has_monster := true }) } }
        else acc) acc).active_monsters).Nodup)
  ∧ ((∀ q ∈ acc.active_monsters, q.2.vertex_id = q.1) →
      ∀ q ∈ (l.foldl (fun acc p =>
        if p.2.has_monster = true ∧ alookup acc.active_monsters p.1 = none then
          { acc with
            active_monsters := aset acc.active_monsters p.1
              ({ MonsterState.init
                  (Monster.init (parseMonsterType p.2.monster_type)
                    (if p.1 = 2 then 2 else if p.1 = 5 then 4 else 1))
                  p.1 (p.1 :: (nbrIds acc.graph p.1).take 1) with
                state := if 1 < (p.1 :: (nbrIds acc.graph p.1).take 1).length
                  then "patrol" else "idle" }),
            graph := { acc.graph with
              vertices := amodify acc.graph.vertices p.1
                (fun vt => { vt with has_monster := true }) } }
        else acc) acc).active_monsters, q.2.vertex_id = q.1) := by
  induction l with
  | nil => intro acc; exact ⟨fun h => h, fun h => h⟩
  | cons p rest ih =>
    intro acc
    rw [List.foldl_cons]
    by_cases hc : p.2.has_monster = true ∧ alookup acc.active_monsters p.1 = none
    · rw [if_pos hc]
      constructor
      · intro hnd
        exact (ih _).1 (akeys_aset_nodup _ _ _ hnd)
      · intro hkc
        refine (ih _).2 ?_
        intro q hq
        rcases mem_aset _ _ _ _ hq with hq | hq
        · exact hkc q hq
        · rw [hq]
          rfl
    · rw [if_neg hc]
      exact ih acc

theorem spawn_from_graph_nodup (st : GState)
    (hnd : (akeys st.active_monsters).Nodup) :
    (akeys (spawn_from_graph st).active_monsters).Nodup := by
  unfold spawn_from_graph
  simp only
  apply List.Nodup.sublist _ ((spawnFold_active st.graph.vertices st).1 hnd)
  exact (List.filter_sublist _).map _

theorem spawn_from_graph_keys (st : GState)
    (hkc : ∀ q ∈ st.active_monsters, q.2.vertex_id = q.1) :
    ∀ q ∈ (spawn_from_graph st).active_monsters, q.2.vertex_id = q.1 := by
  unfold spawn_from_graph
  simp only
  intro q hq
  exact (spawnFold_active st.graph.vertices st).2 hkc q (List.mem_of_mem_filter hq)

/-- The per-monster loop leaves only `idle` states behind. -/
theorem updateStep_fold_idle (delta : ℚ) :
    ∀ (l : List (Nat × MonsterState)) (acc : GState),
    (akeys acc.active_monsters).Nodup →
    (∀ p ∈ l, p.2.vertex_id = p.1) →
    (∀ v ms, alookup acc.active_monsters v = some ms →
      (v, ms) ∈ l ∨ ms.state = "idle") →
    ∀ v ms, alookup (l.foldl (updateStep delta) acc).active_monsters v = some ms →
      ms.state = "idle" := by
  intro l
  induction l with
  | nil =>
    intro acc hnd hlk hcond v ms hl
    rcases hcond v ms hl with h | h
    · exact absurd h (List.not_mem_nil _)
    · exact h
  | cons p rest ih =>
    intro acc hnd hlk hcond v ms hl
    rw [List.foldl_cons] at hl
    have hpv : p.2.vertex_id = p.1 := hlk p (List.mem_cons_self _ _)
    have hlk' : ∀ q ∈ rest, q.2.vertex_id = q.1 :=
      fun q hq => hlk q (List.mem_cons_of_mem _ hq)
    refine ih (updateStep delta acc p) ?_ hlk' ?_ v ms hl
    · simp only [updateStep, _on_monster_death]
      split_ifs
      · exact akeys_aerase_nodup _ _ hnd
      · exact akeys_aset_nodup _ _ _ hnd
      · exact akeys_aset_nodup _ _ _ hnd
    · intro w msw hw
      simp only [updateStep, _on_monster_death] at hw
      have hms'v : ({ p.2 with time_since_last_move :=
          p.2.time_since_last_move + delta } : MonsterState).vertex_id = p.1 := hpv
      by_cases hdead :
          ({ p.2 with time_since_last_move := p.2.time_since_last_move + delta
            } : MonsterState).monster.is_alive = false
      · rw [if_pos hdead] at hw
        simp only at hw
        rw [hms'v] at hw
        by_cases hwp : w = p.1
        · rw [hwp, alookup_aerase_self _ _ hnd] at hw
          cases hw
        · rw [alookup_aerase_ne _ _ _ (fun h => hwp h.symm)] at hw
          rcases hcond w msw hw with h | h
          · rcases List.mem_cons.mp h with h | h
            · exact absurd (congrArg Prod.fst h) hwp
            · exact Or.inl h
          · exact Or.inr h
      · rw [if_neg hdead] at hw
        simp only at hw
        by_cases hwp : w = p.1
        · subst hwp
          rw [alookup_aset_self] at hw
          right
          by_cases hs :
              ({ p.2 with time_since_last_move := p.2.time_since_last_move + delta
                } : MonsterState).state ≠ "idle"
          · rw [if_pos hs] at hw
            cases hw
            rfl
          · rw [if_neg hs] at hw
            cases hw
            exact not_not.mp hs
        · rw [alookup_aset_ne _ _ _ _ (fun h => hwp h.symm)] at hw
          rcases hcond w msw hw with h | h
          · rcases List.mem_cons.mp h with h | h
            · exact absurd (congrArg Prod.fst h) hwp
            · exact Or.inl h
          · exact Or.inr h

/-- C6, amended: `MonsterSystem.update` never produces a chasing monster —
every monster that survives the update has state `idle` (the detection and
chase logic is disabled in the source). The hypotheses are the monster
registry's representation invariants (unique keys, each state keyed by its
own vertex). -/
theorem C6_update_forces_idle (st : GState) (delta : ℚ)
    (hnd : (akeys st.active_monsters).Nodup)
    (hkc : ∀ q ∈ st.active_monsters, q.2.vertex_id = q.1) :
    ∀ v ms, alookup (MonsterSystem.update st delta).active_monsters v = some ms →
      ms.state = "idle" := by
  intro v ms h
  unfold MonsterSystem.update at h
  refine updateStep_fold_idle delta (spawn_from_graph st).active_monsters
    (spawn_from_graph st) (spawn_from_graph_nodup st hnd)
    (spawn_from_graph_keys st hkc) ?_ v ms h
  intro w msw hw
  exact Or.inl (alookup_some_mem _ _ _ hw)

/-- C6, witness: the amended statement applied to the cave scenario. -/
theorem C6_update_forces_idle_witness :
    ((akeys gsCave.active_monsters).Nodup
      ∧ ∀ q ∈ gsCave.active_monsters, q.2.vertex_id = q.1)
  ∧ (∀ v ms, alookup (MonsterSystem.update gsCave (1/10)).active_monsters v
        = some ms → ms.state = "idle") :=
  ⟨⟨by decide, by decide⟩,
    C6_update_forces_idle gsCave (1/10) (by decide) (by decide)⟩

/-! ### C5, amended — every vertex gets an explicit entry; finite ⇒ reachable -/

theorem akeys_map_top (m : List (Nat × Vertex)) :
    akeys (m.map (fun p => (p.1, (⊤ : WithTop Int)))) = akeys m := by
  simp [akeys, List.map_map]

theorem alookup_map_top (m : List (Nat × Vertex)) (v : Nat) :
    alookup (m.map (fun p => (p.1, (⊤ : WithTop Int)))) v
      = (alookup m v).map (fun _ => (⊤ : WithTop Int)) := by
  induction m with
  | nil => rfl
  | cons p rest ih =>
    by_cases hp : p.1 = v
    · simp [alookup, hp]
    · simp only [List.map_cons, alookup, if_neg hp, ih]

theorem dijkstraRelax_inv (g : Graph) (hwf : g.WF) (s cur : Nat) (d : Int)
    (hcur : Reach g s cur) :
    ∀ (l : List (Nat × Edge)), (∀ q ∈ l, q.1 ∈ nbrIds g cur) →
    ∀ (st : DijkstraState), DijInv g s st →
      DijInv g s (dijkstraRelax cur d l st) := by
  intro l
  induction l with
  | nil =>
    intro _ st h
    exact h
  | cons q rest ih =>
    obtain ⟨nb, e⟩ := q
    intro hl st hinv
    have hnb : nb ∈ nbrIds g cur := hl (nb, e) (List.mem_cons_self _ _)
    have hl' : ∀ r ∈ rest, r.1 ∈ nbrIds g cur :=
      fun r hr => hl r (List.mem_cons_of_mem _ hr)
    show DijInv g s (dijkstraRelax cur d ((nb, e) :: rest) st)
    simp only [dijkstraRelax]
    by_cases hc : ((d + e.weight : Int) : WithTop Int)
        < ((alookup st.distances nb).getD ⊤)
    · rw [if_pos hc]
      apply ih hl'
      have hmem : nb ∈ akeys st.distances := by
        rw [hinv.keysEq]
        exact nbrIds_closed hwf hnb
      refine ⟨?_, ?_, ?_⟩
      · show akeys (aset st.distances nb _) = akeys g.vertices
        rw [akeys_aset_of_mem _ _ _ hmem]
        exact hinv.keysEq
      · intro v dv hv hfin
        by_cases hvn : v = nb
        · subst hvn
          obtain ⟨n, hn⟩ := hcur
          exact ⟨n + 1, hn.step hnb⟩
        · rw [show (alookup (aset st.distances nb ((d + e.weight : Int) : WithTop Int)) v)
              = alookup st.distances v
              from alookup_aset_ne _ _ _ _ (fun h => hvn h.symm)] at hv
          exact hinv.finite_reach v dv hv hfin
      · intro r hr
        rcases List.mem_append.mp hr with hr | hr
        · exact hinv.pq_reach r hr
        · have : r = (d + e.weight, nb) := by
            simpa using hr
          rw [this]
          obtain ⟨n, hn⟩ := hcur
          exact ⟨n + 1, hn.step hnb⟩
    · rw [if_neg hc]
      exact ih hl' st hinv

theorem dijkstraAux_inv (g : Graph) (hwf : g.WF) (s : Nat)
    (endId : Option Nat) :
    ∀ (fuel : Nat) (st : DijkstraState), DijInv g s st →
      DijInv g s (dijkstraAux g endId fuel st) := by
  intro fuel
  induction fuel with
  | zero =>
    intro st h
    exact h
  | succ n ih =>
    intro st hinv
    show DijInv g s (dijkstraAux g endId (n + 1) st)
    rw [dijkstraAux]
    cases hpop : popMinBy lexLe st.pq with
    | none => exact hinv
    | some pr =>
      obtain ⟨⟨d, cur⟩, rest⟩ := pr
      obtain ⟨hmem, hsub⟩ := popMinBy_mem lexLe st.pq (d, cur) rest hpop
      have hrest : DijInv g s { st with pq := rest } :=
        ⟨hinv.keysEq, hinv.finite_reach, fun r hr => hinv.pq_reach r (hsub r hr)⟩
      simp only
      by_cases hv : cur ∈ st.visited
      · rw [if_pos hv]
        exact ih _ hrest
      · rw [if_neg hv]
        have hst1 : DijInv g s { st with pq := rest, visited := cur :: st.visited } :=
          ⟨hinv.keysEq, hinv.finite_reach, fun r hr => hinv.pq_reach r (hsub r hr)⟩
        by_cases he : endId = some cur
        · rw [if_pos he]
          exact hst1
        · rw [if_neg he]
          by_cases hstale : ((alookup st.distances cur).getD ⊤)
              < ((d : Int) : WithTop Int)
          · rw [if_pos hstale]
            exact ih _ hst1
          · rw [if_neg hstale]
            apply ih
            exact dijkstraRelax_inv g hwf s cur d (hinv.pq_reach (d, cur) hmem)
              (g.neighbors cur false)
              (fun r hr => List.mem_map_of_mem Prod.fst hr) _ hst1

/-- C5, amended: the distance map returned by `dijkstra` has an entry for
every vertex of the graph — unreachable vertices are present with the
explicit value `float('inf')` — and every finite entry belongs to a vertex
reachable from the start through unblocked edges. -/
theorem C5_dijkstra_explicit_inf (g : Graph) (hwf : g.WF) (s : Nat)
    (hs : (alookup g.vertices s).isSome) :
    akeys (dijkstra g s none).fst = akeys g.vertices
  ∧ ∀ v d, alookup (dijkstra g s none).fst v = some d → d ≠ ⊤ →
      ∃ n, ReachN g s v n := by
  unfold dijkstra
  rw [if_pos hs]
  simp only
  have hsmem : s ∈ akeys (g.vertices.map (fun p => (p.1, (⊤ : WithTop Int)))) := by
    rw [akeys_map_top]
    exact alookup_isSome_mem_akeys _ _ hs
  have hinit : DijInv g s
      { distances := aset (g.vertices.map (fun p => (p.1, (⊤ : WithTop Int))))
          s ((0 : Int) : WithTop Int),
        predecessors := [], pq := [((0 : Int), s)], visited := [] } := by
    refine ⟨?_, ?_, ?_⟩
    · show akeys (aset _ s _) = akeys g.vertices
      rw [akeys_aset_of_mem _ _ _ hsmem, akeys_map_top]
    · intro v dv hv hfin
      by_cases hvs : v = s
      · subst hvs
        exact ⟨0, ReachN.refl⟩
      · rw [show alookup (aset (g.vertices.map (fun p => (p.1, (⊤ : WithTop Int))))
            s ((0 : Int) : WithTop Int)) v
            = alookup (g.vertices.map (fun p => (p.1, (⊤ : WithTop Int)))) v
            from alookup_aset_ne _ _ _ _ (fun h => hvs h.symm),
          alookup_map_top] at hv
        cases halt : alookup g.vertices v with
        | none => rw [halt] at hv; cases hv
        | some vtx =>
          rw [halt] at hv
          cases hv
          exact absurd rfl hfin
    · intro r hr
      have : r = ((0 : Int), s) := by simpa using hr
      rw [this]
      exact ⟨0, ReachN.refl⟩
  have hfin := dijkstraAux_inv g hwf s none (dijkstraFuel g) _ hinit
  exact ⟨hfin.keysEq, fun v d hv hf => hfin.finite_reach v d hv hf⟩

/-- C5, witness: the amended statement on the two-vertex edgeless graph. -/
theorem C5_dijkstra_explicit_inf_witness :
    (Graph.WF gNoEdge ∧ (alookup gNoEdge.vertices 0).isSome)
  ∧ (akeys (dijkstra gNoEdge 0 none).fst = akeys gNoEdge.vertices
    ∧ ∀ v d, alookup (dijkstra gNoEdge 0 none).fst v = some d → d ≠ ⊤ →
        ∃ n, ReachN gNoEdge 0 v n) :=
  ⟨⟨⟨by decide, by decide⟩, by decide⟩,
    C5_dijkstra_explicit_inf gNoEdge ⟨by decide, by decide⟩ 0 (by decide)⟩

theorem alookup_isSome_of_mem_akeys {α : Type} (m : List (Nat × α)) (k : Nat)
    (h : k ∈ akeys m) : (alookup m k).isSome := by
  induction m with
  | nil => cases h
  | cons p rest ih =>
    rw [akeys_cons, List.mem_cons] at h
    by_cases hp : p.1 = k
    · simp [alookup, hp]
    · rcases h with h | h
      · exact absurd h.symm hp
      · simp only [alookup, if_neg hp]
        exact ih h

theorem filter_notmem_cons (keys : List Nat) (hnd : keys.Nodup) (nb : Nat)
    (visited : List Nat) (hmem : nb ∈ keys) (hnv : nb ∉ visited) :
    (keys.filter (fun v => decide (¬ v ∈ nb :: visited))).length + 1
      = (keys.filter (fun v => decide (¬ v ∈ visited))).length := by
  induction keys with
  | nil => cases hmem
  | cons k rest ih =>
    rw [List.nodup_cons] at hnd
    rw [List.filter_cons, List.filter_cons]
    by_cases hk : k = nb
    · subst hk
      rw [if_neg (by simp), if_pos (by simpa using hnv)]
      have hfe : rest.filter (fun v => decide (¬ v ∈ k :: visited))
          = rest.filter (fun v => decide (¬ v ∈ visited)) := by
        apply List.filter_congr
        intro v hvr
        have hvk : v ≠ k := fun h => hnd.1 (h ▸ hvr)
        simp [List.mem_cons, hvk]
      rw [hfe, List.length_cons]
    · have hmem' : nb ∈ rest := by
        rcases List.mem_cons.mp hmem with h | h
        · exact absurd h.symm hk
        · exact h
      have hstep := ih hnd.2 hmem'
      by_cases hkv : k ∈ visited
      · rw [if_neg (by simp [hkv]), if_neg (by simp [hkv])]
        exact hstep
      · rw [if_pos (by simp [List.mem_cons, hk, hkv]), if_pos (by simpa using hkv)]
        rw [List.length_cons, List.length_cons]
        omega

theorem bfsRelax_measure (g : Graph) (hnd : (akeys g.vertices).Nodup) (d : Nat) :
    ∀ (l : List (Nat × Edge)) (st : BfsState),
      (∀ q ∈ l, q.1 ∈ akeys g.vertices) →
      bfsMeasure g (bfsRelax d l st) ≤ bfsMeasure g st := by
  intro l
  induction l with
  | nil =>
    intro st _
    exact le_refl _
  | cons q rest ih =>
    intro st hl
    obtain ⟨nb, e⟩ := q
    by_cases hv : nb ∈ st.visited
    · rw [show bfsRelax d ((nb, e) :: rest) st = bfsRelax d rest st from by
        simp [bfsRelax, hv]]
      exact ih st (fun q hq => hl q (List.mem_cons_of_mem _ hq))
    · rw [show bfsRelax d ((nb, e) :: rest) st
          = bfsRelax d rest
              { distances := aset st.distances nb (d + 1),
                queue := st.queue ++ [(nb, d + 1)],
                visited := nb :: st.visited } from by
        simp [bfsRelax, hv]]
      refine le_trans (ih _ (fun q hq => hl q (List.mem_cons_of_mem _ hq))) ?_
      have hcnt := filter_notmem_cons (akeys g.vertices) hnd nb st.visited
        (hl (nb, e) (List.mem_cons_self _ _)) hv
      show ((akeys g.vertices).filter
            (fun v => decide (¬ v ∈ nb :: st.visited))).length
          + (st.queue ++ [(nb, d + 1)]).length
        ≤ ((akeys g.vertices).filter
            (fun v => decide (¬ v ∈ st.visited))).length + st.queue.length
      rw [List.length_append]
      simp only [List.length_cons, List.length_nil]
      omega

theorem bfsRelax_pres (g : Graph) (hwf : g.WF) (s cur : Nat) (d : Nat) :
    ∀ (l : List (Nat × Edge)) (st : BfsState),
      (∀ q ∈ l, q.1 ∈ nbrIds g cur) →
      BfsRelaxInv g s cur d l st →
      BfsRelaxInv g s cur d [] (bfsRelax d l st) := by
  intro l
  induction l with
  | nil =>
    intro st _ hinv
    exact hinv
  | cons q rest ih =>
    intro st hl hinv
    obtain ⟨nb, e⟩ := q
    have hnb_nbr : nb ∈ nbrIds g cur := hl (nb, e) (List.mem_cons_self _ _)
    have hl' : ∀ q ∈ rest, q.1 ∈ nbrIds g cur :=
      fun q hq => hl q (List.mem_cons_of_mem _ hq)
    by_cases hv : nb ∈ st.visited
    · rw [show bfsRelax d ((nb, e) :: rest) st = bfsRelax d rest st from by
        simp [bfsRelax, hv]]
      refine ih st hl' { hinv with curdone := ?_ }
      intro w hw
      rcases hinv.curdone w hw with ⟨e', he'⟩ | hdone
      · rcases List.mem_cons.mp he' with h | h
        · right
          have hwnb : w = nb := by
            injection h with h1 h2
          subst hwnb
          exact ⟨hv, fun m' hm' => hinv.distbound w m' hm'⟩
        · exact Or.inl ⟨e', h⟩
      · exact Or.inr hdone
    · rw [show bfsRelax d ((nb, e) :: rest) st
          = bfsRelax d rest
              { distances := aset st.distances nb (d + 1),
                queue := st.queue ++ [(nb, d + 1)],
                visited := nb :: st.visited } from by
        simp [bfsRelax, hv]]
      refine ih _ hl' ?_
      refine { vis_dist := ?_, qdist := ?_, sound := ?_, qrange := ?_,
               qmono := ?_, distbound := ?_, others := ?_, curdone := ?_,
               start_mem := ?_, vis_sub := ?_, cur_dist := ?_, cur_vis := ?_ }
      · intro v
        by_cases hvn : v = nb
        · subst hvn
          simp [alookup_aset_self]
        · rw [alookup_aset_ne _ _ _ _ (fun h => hvn h.symm)]
          constructor
          · intro h
            rcases List.mem_cons.mp h with h | h
            · exact absurd h hvn
            · exact (hinv.vis_dist v).mp h
          · intro h
            exact List.mem_cons_of_mem _ ((hinv.vis_dist v).mpr h)
      · intro p hp
        rcases List.mem_append.mp hp with hp | hp
        · have hold := hinv.qdist p hp
          have hpv : p.1 ∈ st.visited :=
            (hinv.vis_dist p.1).mpr (by rw [hold]; rfl)
          have hpne : nb ≠ p.1 := fun h => hv (h ▸ hpv)
          rw [alookup_aset_ne _ _ _ _ hpne]
          exact hold
        · have hpe : p = (nb, d + 1) := by simpa using hp
          rw [hpe]
          exact alookup_aset_self _ _ _
      · intro v n hvn
        by_cases hveq : v = nb
        · subst hveq
          rw [alookup_aset_self] at hvn
          cases hvn
          exact ReachN.step (hinv.sound cur d hinv.cur_dist) hnb_nbr
        · rw [alookup_aset_ne _ _ _ _ (fun h => hveq h.symm)] at hvn
          exact hinv.sound v n hvn
      · intro p hp
        rcases List.mem_append.mp hp with hp | hp
        · exact hinv.qrange p hp
        · have hpe : p = (nb, d + 1) := by simpa using hp
          rw [hpe]
          exact ⟨Nat.le_succ d, le_refl _⟩
      · show ((st.queue ++ [(nb, d + 1)]).map Prod.snd).Pairwise (· ≤ ·)
        rw [List.map_append]
        apply List.pairwise_append.mpr
        refine ⟨hinv.qmono, by simp, ?_⟩
        intro a ha b hb
        have hbe : b = d + 1 := by simpa using hb
        subst hbe
        obtain ⟨p, hp, hpa⟩ := List.mem_map.mp ha
        have h2 := (hinv.qrange p hp).2
        omega
      · intro v n hvn
        by_cases hveq : v = nb
        · subst hveq
          rw [alookup_aset_self] at hvn
          cases hvn
          exact le_refl _
        · rw [alookup_aset_ne _ _ _ _ (fun h => hveq h.symm)] at hvn
          exact hinv.distbound v n hvn
      · intro v hvmem hvq hvcur w hw
        have hvne_nb : v ≠ nb := by
          intro h
          subst h
          apply hvq
          rw [List.map_append]
          exact List.mem_append.mpr (Or.inr (by simp))
        have hvmem' : v ∈ st.visited := by
          rcases List.mem_cons.mp hvmem with h | h
          · exact absurd h hvne_nb
          · exact h
        have hvq' : v ∉ st.queue.map Prod.fst := by
          intro h
          exact hvq (by rw [List.map_append]; exact List.mem_append.mpr (Or.inl h))
        obtain ⟨hwvis, hbound⟩ := hinv.others v hvmem' hvq' hvcur w hw
        refine ⟨List.mem_cons_of_mem _ hwvis, ?_⟩
        intro n m' hn hm'
        have hwne : w ≠ nb := fun h => hv (h ▸ hwvis)
        rw [alookup_aset_ne _ _ _ _ (fun h => hvne_nb h.symm)] at hn
        rw [alookup_aset_ne _ _ _ _ (fun h => hwne h.symm)] at hm'
        exact hbound n m' hn hm'
      · intro w hw
        rcases hinv.curdone w hw with ⟨e', he'⟩ | ⟨hwvis, hbound⟩
        · rcases List.mem_cons.mp he' with h | h
          · right
            have hwnb : w = nb := by
              injection h with h1 h2
            subst hwnb
            refine ⟨List.mem_cons_self _ _, ?_⟩
            intro m' hm'
            rw [alookup_aset_self] at hm'
            cases hm'
            exact le_refl _
          · exact Or.inl ⟨e', h⟩
        · right
          refine ⟨List.mem_cons_of_mem _ hwvis, ?_⟩
          intro m' hm'
          have hwne : w ≠ nb := fun h => hv (h ▸ hwvis)
          rw [alookup_aset_ne _ _ _ _ (fun h => hwne h.symm)] at hm'
          exact hbound m' hm'
      · have hs_vis : s ∈ st.visited :=
          (hinv.vis_dist s).mpr (by rw [hinv.start_mem]; rfl)
        have hsne : s ≠ nb := fun h => hv (h ▸ hs_vis)
        show alookup (aset st.distances nb (d + 1)) s = some 0
        rw [alookup_aset_ne _ _ _ _ (fun h => hsne h.symm)]
        exact hinv.start_mem
      · intro v hvm
        rcases List.mem_cons.mp hvm with h | h
        · subst h
          exact nbrIds_closed hwf hnb_nbr
        · exact hinv.vis_sub v h
      · have hcne : cur ≠ nb := fun h => hv (h ▸ hinv.cur_vis)
        show alookup (aset st.distances nb (d + 1)) cur = some d
        rw [alookup_aset_ne _ _ _ _ (fun h => hcne h.symm)]
        exact hinv.cur_dist
      · exact List.mem_cons_of_mem _ hinv.cur_vis

theorem bfsInv_pop (g : Graph) (s : Nat) (st : BfsState) (cur d : Nat)
    (rest : List (Nat × Nat)) (hq : st.queue = (cur, d) :: rest)
    (hinv : BfsInv g s st) :
    BfsRelaxInv g s cur d (g.neighbors cur false) { st with queue := rest } := by
  have hhead : (cur, d) ∈ st.queue := by
    rw [hq]
    exact List.mem_cons_self _ _
  have hcur_dist : alookup st.distances cur = some d := hinv.qdist (cur, d) hhead
  have hpw := hinv.qmono
  rw [hq, List.map_cons] at hpw
  obtain ⟨hle, hpw'⟩ := List.pairwise_cons.mp hpw
  refine { vis_dist := hinv.vis_dist, qdist := ?_, sound := hinv.sound,
           qrange := ?_, qmono := hpw', distbound := ?_, others := ?_,
           curdone := ?_, start_mem := hinv.start_mem, vis_sub := hinv.vis_sub,
           cur_dist := hcur_dist,
           cur_vis := (hinv.vis_dist cur).mpr (by rw [hcur_dist]; rfl) }
  · intro p hp
    exact hinv.qdist p (by rw [hq]; exact List.mem_cons_of_mem _ hp)
  · intro p hp
    refine ⟨hle p.2 (List.mem_map_of_mem Prod.snd hp), ?_⟩
    refine hinv.qnear p.2 ?_ d ?_
    · rw [hq, List.map_cons]
      exact List.mem_cons_of_mem _ (List.mem_map_of_mem Prod.snd hp)
    · rw [hq, List.map_cons]
      exact List.mem_cons_self _ _
  · intro v n hv
    exact hinv.distnear v n hv (cur, d) hhead
  · intro v hvmem hvq hvcur w hw
    refine hinv.closure v hvmem ?_ w hw
    rw [hq, List.map_cons]
    intro hc
    rcases List.mem_cons.mp hc with h | h
    · exact hvcur h
    · exact hvq h
  · intro w hw
    simp only [nbrIds] at hw
    obtain ⟨p, hp, hfst⟩ := List.mem_map.mp hw
    left
    refine ⟨p.2, ?_⟩
    have hpe : (w, p.2) = p := by rw [← hfst]
    rw [hpe]
    exact hp

theorem bfsInv_of_relaxInv (g : Graph) (s cur d : Nat) (st : BfsState)
    (hinv : BfsRelaxInv g s cur d [] st) : BfsInv g s st := by
  refine { vis_dist := hinv.vis_dist, qdist := hinv.qdist, sound := hinv.sound,
           qmono := hinv.qmono, qnear := ?_, distnear := ?_, closure := ?_,
           start_mem := hinv.start_mem, vis_sub := hinv.vis_sub }
  · intro a ha b hb
    obtain ⟨p, hp, hpa⟩ := List.mem_map.mp ha
    obtain ⟨q, hqm, hqb⟩ := List.mem_map.mp hb
    have h1 := (hinv.qrange p hp).2
    have h2 := (hinv.qrange q hqm).1
    omega
  · intro v n hv p hp
    have h1 := hinv.distbound v n hv
    have h2 := (hinv.qrange p hp).1
    omega
  · intro v hvmem hvq w hw
    by_cases hvc : v = cur
    · subst hvc
      rcases hinv.curdone w hw with ⟨e, he⟩ | ⟨hwvis, hbound⟩
      · exact absurd he (List.not_mem_nil _)
      · refine ⟨hwvis, ?_⟩
        intro n m' hn hm'
        have hnd : n = d := Option.some.inj (hn.symm.trans hinv.cur_dist)
        subst hnd
        exact hbound m' hm'
    · exact hinv.others v hvmem hvq hvc w hw

theorem bfsAux_run (g : Graph) (hwf : g.WF) (s : Nat) :
    ∀ (fuel : Nat) (st : BfsState), BfsInv g s st →
      bfsMeasure g st ≤ fuel →
      BfsInv g s (bfsAux g none fuel st) ∧ (bfsAux g none fuel st).queue = [] := by
  intro fuel
  induction fuel with
  | zero =>
    intro st hinv hM
    have hlen : st.queue.length = 0 := by
      simp only [bfsMeasure] at hM
      omega
    exact ⟨hinv, List.length_eq_zero.mp hlen⟩
  | succ n ih =>
    intro st hinv hM
    rw [bfsAux]
    cases hq : st.queue with
    | nil =>
      exact ⟨hinv, hq⟩
    | cons p rest =>
      obtain ⟨cur, d⟩ := p
      show BfsInv g s (bfsAux g none n
            (bfsRelax d (g.neighbors cur false) { st with queue := rest }))
        ∧ (bfsAux g none n
            (bfsRelax d (g.neighbors cur false) { st with queue := rest })).queue = []
      have hinv1 := bfsInv_pop g s st cur d rest hq hinv
      have hl : ∀ q ∈ g.neighbors cur false, q.1 ∈ nbrIds g cur :=
        fun q hqm => List.mem_map_of_mem Prod.fst hqm
      have hinv2 := bfsRelax_pres g hwf s cur d (g.neighbors cur false)
        { st with queue := rest } hl hinv1
      have hinv3 := bfsInv_of_relaxInv g s cur d _ hinv2
      have h1 : bfsMeasure g { st with queue := rest } + 1 = bfsMeasure g st := by
        show (((akeys g.vertices).filter
              (fun v => decide (¬ v ∈ st.visited))).length + rest.length) + 1
          = ((akeys g.vertices).filter
              (fun v => decide (¬ v ∈ st.visited))).length + st.queue.length
        rw [hq]
        simp only [List.length_cons]
        omega
      have h2 := bfsRelax_measure g hwf.nodup_v d (g.neighbors cur false)
        { st with queue := rest } (fun q hqm => nbrIds_closed hwf (hl q hqm))
      exact ih _ hinv3 (by omega)

theorem bfs_final_min (g : Graph) (s : Nat) (st : BfsState)
    (hinv : BfsInv g s st) (hq : st.queue = []) :
    ∀ v n, ReachN g s v n → ∃ m', m' ≤ n ∧ alookup st.distances v = some m' := by
  intro v n h
  induction h with
  | refl => exact ⟨0, le_refl 0, hinv.start_mem⟩
  | @step u w n hr hmem ih =>
    obtain ⟨m', hle, hm'⟩ := ih
    have hu_vis : u ∈ st.visited := (hinv.vis_dist u).mpr (by rw [hm']; rfl)
    obtain ⟨hw_vis, hbound⟩ :=
      hinv.closure u hu_vis (by rw [hq]; simp) w hmem
    have hw_some := (hinv.vis_dist w).mp hw_vis
    obtain ⟨mw, hmw⟩ := Option.isSome_iff_exists.mp hw_some
    exact ⟨mw, by have := hbound m' mw hm' hmw; omega, hmw⟩

/-- C7: `bfs` with no `max_depth` is a correct unweighted shortest-path
search: every recorded entry `v ↦ n` means there is a walk of `n` unblocked
edges from the start to `v` and no shorter one, every vertex reachable
through unblocked edges has an entry, and every recorded vertex is
reachable — unreachable vertices are mapped to nothing at all. -/
theorem C7_bfs_correct (g : Graph) (hwf : g.WF) (s : Nat)
    (hs : (alookup g.vertices s).isSome) :
    (∀ v n, alookup (bfs g s none) v = some n →
        ReachN g s v n ∧ ∀ k, ReachN g s v k → n ≤ k)
  ∧ (∀ v, (∃ k, ReachN g s v k) → (alookup (bfs g s none) v).isSome)
  ∧ (∀ v, (alookup (bfs g s none) v).isSome → ∃ k, ReachN g s v k) := by
  have hbfs : bfs g s none
      = (bfsAux g none (g.vertices.length + 1)
          { distances := [(s, 0)], queue := [(s, 0)], visited := [s] }).distances := by
    rw [bfs, if_pos hs]
  have hinv0 : BfsInv g s
      { distances := [(s, 0)], queue := [(s, 0)], visited := [s] } := by
    refine { vis_dist := ?_, qdist := ?_, sound := ?_, qmono := ?_, qnear := ?_,
             distnear := ?_, closure := ?_, start_mem := ?_, vis_sub := ?_ }
    · intro v
      constructor
      · intro h
        have hvs : v = s := by simpa using h
        subst hvs
        simp [alookup]
      · intro h
        by_cases hvs : s = v
        · simp [hvs]
        · simp [alookup, hvs] at h
    · intro p hp
      have hpe : p = (s, 0) := by simpa using hp
      subst hpe
      simp [alookup]
    · intro v n hv
      by_cases hvs : s = v
      · subst hvs
        simp only [alookup, if_pos rfl] at hv
        cases hv
        exact ReachN.refl
      · simp [alookup, hvs] at hv
    · simp
    · intro a ha b hb
      have hae : a = 0 := by simpa using ha
      subst hae
      omega
    · intro v n hv p hp
      have hpe : p = (s, 0) := by simpa using hp
      subst hpe
      by_cases hvs : s = v
      · subst hvs
        simp only [alookup, if_pos rfl] at hv
        cases hv
        exact Nat.zero_le _
      · simp [alookup, hvs] at hv
    · intro v hvmem hvq w hw
      have hvs : v = s := by simpa using hvmem
      exact absurd (by simp [hvs] : v ∈ List.map Prod.fst [(s, 0)]) hvq
    · simp [alookup]
    · intro v hvm
      have hvs : v = s := by simpa using hvm
      subst hvs
      exact alookup_isSome_mem_akeys _ _ hs
  have hM0 : bfsMeasure g
      { distances := [(s, 0)], queue := [(s, 0)], visited := [s] }
      ≤ g.vertices.length + 1 := by
    have h1 := List.length_filter_le
      (fun v => decide (¬ v ∈ [s])) (akeys g.vertices)
    have h2 : (akeys g.vertices).length = g.vertices.length := by
      simp [akeys]
    show ((akeys g.vertices).filter
          (fun v => decide (¬ v ∈ [s]))).length + [(s, 0)].length
        ≤ g.vertices.length + 1
    simp only [List.length_singleton]
    omega
  obtain ⟨hinvF, hqF⟩ := bfsAux_run g hwf s (g.vertices.length + 1)
    { distances := [(s, 0)], queue := [(s, 0)], visited := [s] } hinv0 hM0
  refine ⟨?_, ?_, ?_⟩
  · intro v n hv
    rw [hbfs] at hv
    refine ⟨hinvF.sound v n hv, ?_⟩
    intro k hk
    obtain ⟨m', hm'le, hm'⟩ := bfs_final_min g s _ hinvF hqF v k hk
    rw [hv] at hm'
    cases hm'
    exact hm'le
  · rintro v ⟨k, hk⟩
    obtain ⟨m', _, hm'⟩ := bfs_final_min g s _ hinvF hqF v k hk
    rw [hbfs, hm']
    rfl
  · intro v hsome
    rw [hbfs] at hsome
    obtain ⟨n, hn⟩ := Option.isSome_iff_exists.mp hsome
    exact ⟨n, hinvF.sound v n hn⟩

/-- C7, witness: the property discharged on the concrete graph `gBfs`
(edge between vertices 0 and 1, vertex 2 isolated) from start vertex 0. -/
theorem C7_bfs_correct_witness :
    (Graph.WF gBfs ∧ (alookup gBfs.vertices 0).isSome)
  ∧ ((∀ v n, alookup (bfs gBfs 0 none) v = some n →
        ReachN gBfs 0 v n ∧ ∀ k, ReachN gBfs 0 v k → n ≤ k)
    ∧ (∀ v, (∃ k, ReachN gBfs 0 v k) → (alookup (bfs gBfs 0 none) v).isSome)
    ∧ (∀ v, (alookup (bfs gBfs 0 none) v).isSome → ∃ k, ReachN gBfs 0 v k)) :=
  ⟨⟨⟨by decide, by decide⟩, by decide⟩,
    C7_bfs_correct gBfs ⟨by decide, by decide⟩ 0 (by decide)⟩

end CacaTesouro
